import Mathlib

/-!
Verification development for the AQUA maritime-routing engine.

The definitions below are a shallow embedding of the consolidated
`AStarPathfinder` class (the canonical pathfinder source file) together with
the grid-conversion functions of `navigation-grid.js`.  Conventions:

* JavaScript floating-point numbers are modelled as exact rationals (`ℚ`).
  IEEE `Infinity` returned by `calculateFuelPerKm` is modelled by `Option ℚ`
  (`none` = `+∞`); the two unreachable `Infinity` branches inside the cost
  model are modelled by the sentinel `infinityQ` (see its doc comment).
* Nullable environmental fields are `Option ℚ` (`none` = `null`/missing).
* The great-circle distance (`calculateDistance`), the forward azimuth
  (`calculateBearing`), `Math.sin`/`Math.cos`/`Math.sqrt`/`Math.pow` and the
  environmental-data cache are transcendental / external oracles; the
  embedding abstracts them as explicit function parameters (`Geo`, `Trig`,
  `EnvCache`).  Every claim below is either independent of the oracle values
  or carries the oracle properties it needs as explicit hypotheses that the
  real implementations satisfy (for example nonnegativity of the haversine
  distance).
* Mutable JavaScript state (heap arrays, the BFS queue, parent pointers,
  cumulative-fuel accumulators) is threaded explicitly; the `while` loops of
  `runAStar` and `findPathToNearestWater` are modelled with an explicit fuel
  counter (the source loops terminate because every heap push / queue push is
  bounded by the number of grid cells, so a fuel of `9 * cols * rows + 9`
  is never exhausted on the loops the source actually runs).
-/

/-- Geographic coordinate pair, as produced by `gridToLatLng`. -/
structure LatLng where
  lat : ℚ
  lng : ℚ
deriving DecidableEq, Repr

/-- Integer raster cell `{x, y}` as produced by `latLngToGrid` (possibly out
of bounds before the caller's bounds check). -/
structure Node where
  x : ℤ
  y : ℤ
deriving DecidableEq, Repr

/-- Vessel parameters destructured by `calculateFuelPerKm` and read by the
penalty helpers.  The source applies destructuring defaults `k = 0.005`,
`F = 1`, `S = 1`; here every field is an explicit rational supplied by the
caller. -/
structure Params where
  speed : ℚ
  hpReq : ℚ
  fuelRate : ℚ
  k : ℚ
  baseWeight : ℚ
  load : ℚ
  F : ℚ
  S : ℚ
  draft : ℚ
  beam : ℚ
  shipLength : ℚ
deriving DecidableEq, Repr

/-- Environmental sample returned by `envCache.getData`; `none` models the
JavaScript `null` (the code guards every field with `=== null ||  <= 0`
style checks, and guards `depth` with `=== null || === undefined`). -/
structure EnvData where
  depth : Option ℚ
  wind_speed_mps : Option ℚ
  wind_direction_deg : Option ℚ
  current_speed_mps : Option ℚ
  current_direction_deg : Option ℚ
  waves_height_m : Option ℚ
  weekly_precip_mean : Option ℚ
  ice_conc : Option ℚ
deriving DecidableEq, Repr

/-- Environmental sample with every field missing; models the empty object of
`envCache.getData(lat, lng) ?? {}`. -/
def emptyEnv : EnvData :=
  ⟨none, none, none, none, none, none, none, none⟩

/-- Oracle for the spherical geometry of the grid: `dist` is
`calculateDistance` (haversine, km) and `bearing` is `calculateBearing`
(forward azimuth, degrees).  Both are transcendental functions of the two
cell centres, abstracted here as the grid's geometry. -/
structure Geo where
  dist : Node → Node → ℚ
  bearing : Node → Node → ℚ

/-- Oracle for the transcendental library functions used by the cost model:
`sind`/`cosd` are sine and cosine of an angle in radians (the source always
converts degrees to radians first; the embedding keeps the converted
argument), `sqrtq` is `Math.sqrt` and `powq` is `Math.pow`. -/
structure Trig where
  sind : ℚ → ℚ
  cosd : ℚ → ℚ
  sqrtq : ℚ → ℚ
  powq : ℚ → ℚ → ℚ

/-- Oracle for the environmental-data cache: `getData` keyed by latitude and
longitude, already made total by the source's `?? {}` (missing data is the
all-`none` sample). -/
structure EnvCache where
  getData : ℚ → ℚ → EnvData

/-- Sentinel standing for IEEE `Infinity` in the two branches of the cost
model that the source can only reach with a current that exactly cancels the
ship's forward progress (`currentCostMutiplier`) or with a non-positive
effective speed (`timeHours`, unreachable because `getEffectiveSpeed` floors
its result at `0.5`).  Rationals have no infinity; no claim in this
development depends on the numeric value of this branch. -/
def infinityQ : ℚ := 10 ^ 12

/-- Truncating remainder with the sign behaviour of the JavaScript `%`
operator on numbers (truncated division).  All call sites in the source
apply it to nonnegative operands, where it agrees with the mathematical
remainder. -/
def jsMod (a b : ℚ) : ℚ :=
  if 0 ≤ a / b then a - b * ⌊a / b⌋ else a - b * ⌈a / b⌉

/-- Routing strategies iterated by `findPath`. -/
inductive Strategy where
  | balanced
  | fastest
  | safest
deriving DecidableEq, Repr

/-- Weather-penalty weight selected at the top of `calculateSegmentCost`:
`0.2` for `fastest`, `5.0` for `safest`, `1.0` otherwise. -/
def weatherPenaltyWeight : Strategy → ℚ
  | .fastest => 0.2
  | .safest => 5.0
  | .balanced => 1.0

/-- Fuel weight of `calculateSegmentCost`; the source initialises it to
`1.0` and never changes it. -/
def fuelWeight : Strategy → ℚ := fun _ => 1.0

/-- Design speed in km/h: `params.speed * 1.852` (knots to km/h). -/
def speedKmh (p : Params) : ℚ := p.speed * 1.852

/-- Weight factor of `calculateFuelPerKm`:
`totalWeight > 0 ? (1 + k * (load / baseWeight)) : 1`. -/
def weightFactor (p : Params) : ℚ :=
  if 0 < p.baseWeight + p.load then 1 + p.k * (p.load / p.baseWeight) else 1

/-- Raw fuel-per-km formula of `calculateFuelPerKm` before the `|| 0.1`
fallback: `((hpReq * 0.95) * fuelRate * weightFactor * F * S) / speedKmh`. -/
def fuelPerKmFormula (p : Params) : ℚ :=
  ((p.hpReq * 0.95) * p.fuelRate * weightFactor p * p.F * p.S) / speedKmh p

/-- Finite value of `calculateFuelPerKm` (the `return fuelPerKm || 0.1` line:
a zero formula value falls back to `0.1`; over `ℚ` there is no `NaN`). -/
def baseFuelPerKmQ (p : Params) : ℚ :=
  if fuelPerKmFormula p = 0 then 0.1 else fuelPerKmFormula p

/-- Embedding of `calculateFuelPerKm` (canonical source): returns `none`
(IEEE `Infinity`) when `speedKmh <= 0`, otherwise the formula value with the
`|| 0.1` zero fallback. -/
def calculateFuelPerKm (p : Params) : Option ℚ :=
  if speedKmh p ≤ 0 then none else some (baseFuelPerKmQ p)

/-- Embedding of `windCostMultiplier`.  The source computes
`Vrel = Math.sqrt(Vship * Vship + w * w)` in the crosswind branch and then
only ever uses `Vrel * Vrel`; since `Vrel ≥ 0`, `Vrel²` equals the radicand,
which is how the embedding states it (`vrel2`). -/
def windCostMultiplier (boatBearing baseFuelPerKm SFOC : ℚ) (p : Params)
    (e : EnvData) : ℚ :=
  let rho : ℚ := 1.225
  let cdFront : ℚ := 0.4
  let cdSide : ℚ := 0.6
  let vship := p.speed * 0.514444
  let speed_kmh := vship * 1.852
  let aFront := 0.08 * p.beam * p.shipLength
  let aSide := 0.25 * p.beam * p.shipLength
  match e.wind_speed_mps with
  | none => 0
  | some w =>
    if w ≤ 0 then 0
    else
      let delta := jsMod (e.wind_direction_deg.getD 0 - boatBearing + 360) 360
      let a := if delta ≤ 45 ∨ 315 ≤ delta then aFront
        else if 135 ≤ delta ∧ delta ≤ 225 then aFront else aSide
      let cd := if delta ≤ 45 ∨ 315 ≤ delta then cdFront
        else if 135 ≤ delta ∧ delta ≤ 225 then cdFront else cdSide
      let vrel2 :=
        if delta ≤ 45 ∨ 315 ≤ delta then (vship + w) ^ 2
        else if 135 ≤ delta ∧ delta ≤ 225 then (max 0 |vship - w|) ^ 2
        else vship ^ 2 + w ^ 2
      let fwind := 0.5 * rho * cd * a * vrel2
      let paddedKW := (fwind * vship) / 1000
      let baseFuelPerKmKg := baseFuelPerKm * 1000
      let baseFuelPerHourKg := baseFuelPerKmKg * speed_kmh
      let pbaseKW := baseFuelPerHourKg / max SFOC 1e-9
      paddedKW / max pbaseKW 1e-6

/-- Embedding of `currentCostMutiplier` (the source spelling, with the typo,
is kept).  Degree-to-radian conversion composed with `Math.sin`/`Math.cos`
is abstracted through the `Trig` oracle; the `Infinity` returned when the
speed over ground is below `0.0001` km/h is the sentinel `infinityQ`. -/
def currentCostMutiplier (t : Trig) (boatBearing : ℚ) (p : Params)
    (e : EnvData) : ℚ :=
  match e.current_speed_mps with
  | none => 0
  | some c =>
    if c ≤ 0 then 0
    else
      let deg2rad : ℚ → ℚ := fun d => d * 3.14159265358979323846 / 180
      let vship := p.speed * 0.514444
      let shipRad := deg2rad boatBearing
      let ship_x := vship * t.sind shipRad
      let ship_y := vship * t.cosd shipRad
      let curRad := deg2rad (e.current_direction_deg.getD 0)
      let cur_x := c * t.sind curRad
      let cur_y := c * t.cosd curRad
      let sog_x := ship_x + cur_x
      let sog_y := ship_y + cur_y
      let sogMps := t.sqrtq (sog_x * sog_x + sog_y * sog_y)
      let sogKmh := sogMps * 3.6
      let speed_kmh := vship * 1.852
      if sogKmh < 0.0001 then infinityQ
      else ((speed_kmh / sogKmh) - 1) * 0.35

/-- Embedding of `waveCostMutiplier`: a purely rational computation (no
transcendental calls). -/
def waveCostMutiplier (boatBearing : ℚ) (p : Params) (e : EnvData) : ℚ :=
  match e.waves_height_m with
  | none => 0
  | some wh =>
    if wh ≤ 0 then 0
    else
      let waveDirection := e.wind_direction_deg.getD 0
      let displacement := if p.baseWeight + p.load = 0 then 1
        else p.baseWeight + p.load
      let kw := 0.2 * (p.beam / p.shipLength) * displacement / 100000
      let delta := |jsMod (waveDirection - boatBearing + 360) 360|
      let factor : ℚ :=
        if delta ≤ 45 ∨ 315 ≤ delta then 1.0
        else if 135 ≤ delta ∧ delta ≤ 225 then -0.3
        else 0.4
      let vship := p.speed * 0.514444
      let vref := 10 * 0.514444
      let speedFactor := (vship / vref) ^ 2
      kw * wh * factor * speedFactor

/-- Embedding of `rainCostMutiplier`; `Math.sqrt` and `Math.pow(·, 0.2)` go
through the `Trig` oracle. -/
def rainCostMutiplier (t : Trig) (p : Params) (e : EnvData) : ℚ :=
  match e.weekly_precip_mean with
  | none => 0
  | some precip =>
    if precip ≤ 0 then 0
    else
      let displacement := if p.baseWeight + p.load = 0 then 1
        else p.baseWeight + p.load
      let sensitivity := 0.5 / t.sqrtq displacement
      let maxIncrease0 := 0.30 * t.powq (500 / displacement) 0.2
      if 0.50 < maxIncrease0 then 5
      else
        let maxIncrease := min 0.30 (max 0.05 maxIncrease0)
        min (sensitivity * precip) maxIncrease

/-- WMO-like ice band of `iceCostMutiplier`: upper concentration bound, base
severity, and the (never consulted) `navigable` flag. -/
structure IceBand where
  bmax : ℚ
  base : ℚ
  navigable : Bool
deriving DecidableEq, Repr

/-- Ice band table literal of `iceCostMutiplier`. -/
def iceBands : List IceBand :=
  [⟨0.10, 0.0, true⟩, ⟨0.30, 0.05, true⟩, ⟨0.60, 0.15, true⟩,
   ⟨0.80, 0.50, false⟩, ⟨1.00, 1.00, false⟩]

/-- Band-selection loop of `iceCostMutiplier`: walk the table, stop at the
first band whose `bmax` bound is at least the concentration, tracking the
previous bound as `lowerBound`; if no band matches, keep the default (the
last band) with the final `lowerBound`. -/
def selectIceBand (dflt : IceBand) (conc lowerBound : ℚ) :
    List IceBand → IceBand × ℚ
  | [] => (dflt, lowerBound)
  | b :: bs =>
    if conc ≤ b.bmax then (b, lowerBound)
    else selectIceBand dflt conc b.bmax bs

/-- Embedding of `iceCostMutiplier` generic in the band table (the source
hard-codes `iceBands`); this generic form is what lets us state that the
`navigable` flags are never consulted. -/
def iceCostMutiplierWith (bands : List IceBand) (t : Trig) (p : Params)
    (e : EnvData) : ℚ :=
  match e.ice_conc with
  | none => 0
  | some conc =>
    if conc ≤ 0 then 0
    else
      let refDisp : ℚ := 10000
      let displacement := if p.baseWeight + p.load = 0 then 1
        else p.baseWeight + p.load
      let sel := selectIceBand (bands.getLastD ⟨1, 1, false⟩) conc 0 bands
      let band := sel.1
      let lowerBound := sel.2
      let bandFraction := (conc - lowerBound) / max (band.bmax - lowerBound) 1e-6
      let concentrationIncrease := band.base * (0.5 + 0.5 * bandFraction)
      let displacementScaling := t.sqrtq (refDisp / displacement)
      max 0 (min (concentrationIncrease * displacementScaling) 3.0)

/-- Embedding of `iceCostMutiplier` (source spelling) with the source's band
table. -/
def iceCostMutiplier (t : Trig) (p : Params) (e : EnvData) : ℚ :=
  iceCostMutiplierWith iceBands t p e

/-- Embedding of `depthCostMutiplier` (source spelling).  The source reads
`envData.depth`; its only call site has already null-checked the depth, so
the embedding takes the unwrapped depth value. -/
def depthCostMutiplier (p : Params) (seaDepth : ℚ) : ℚ :=
  let depthToDraftRatio := seaDepth / p.draft
  if 5 < depthToDraftRatio then 0
  else if depthToDraftRatio < 1.2 then 5
  else
    let shallowEffect := 1 / max (depthToDraftRatio - 1) 0.1
    min shallowEffect 1.0

/-- Embedding of `getEffectiveSpeed`: speed through water after wave / ice /
squat penalties, then vector composition with the current (through the
`Trig` oracle), floored at `0.5` km/h.  The source defaults missing fields
with `||`, so a depth of exactly `0` behaves like missing depth. -/
def getEffectiveSpeed (t : Trig) (baseSpeedKmh : ℚ) (e : EnvData)
    (headingDeg : ℚ) (p : Params) : ℚ :=
  let waveHeight := e.waves_height_m.getD 0
  let waveDir := e.wind_direction_deg.getD 0
  let iceConc := e.ice_conc.getD 0
  let stw1 :=
    if 0.1 < waveHeight then
      let relWaveAngle := |jsMod (waveDir - headingDeg + 360) 360|
      let waveResistanceFactor : ℚ :=
        if relWaveAngle ≤ 60 ∨ 300 ≤ relWaveAngle then 1.0
        else if 60 < relWaveAngle ∧ relWaveAngle < 120 then 0.4
        else 0
      let waveSpeedPenalty := waveHeight * waveResistanceFactor * 0.10
      baseSpeedKmh * (1 - min 0.75 waveSpeedPenalty)
    else baseSpeedKmh
  let stw2 := if 0.05 < iceConc then stw1 * (1 - iceConc ^ 2) else stw1
  let stw3 :=
    match e.depth with
    | none => stw2
    | some d =>
      if d = 0 then stw2
      else
        let depthToDraftRatio := d / max 0.1 p.draft
        if depthToDraftRatio < 1.2 then stw2 * 0.2
        else if depthToDraftRatio < 1.5 then stw2 * 0.6
        else if depthToDraftRatio < 3.0 then stw2 * 0.9
        else stw2
  let currentSpeedMps := e.current_speed_mps.getD 0
  let currentDir := e.current_direction_deg.getD 0
  if 0.05 < currentSpeedMps then
    let deg2rad : ℚ → ℚ := fun d => d * 3.14159265358979323846 / 180
    let shipRad := deg2rad headingDeg
    let ship_x := stw3 * t.sind shipRad
    let ship_y := stw3 * t.cosd shipRad
    let currentSpeedKmh := currentSpeedMps * 3.6
    let currentRad := deg2rad currentDir
    let cur_x := currentSpeedKmh * t.sind currentRad
    let cur_y := currentSpeedKmh * t.cosd currentRad
    let sog_x := ship_x + cur_x
    let sog_y := ship_y + cur_y
    max 0.5 (t.sqrtq (sog_x * sog_x + sog_y * sog_y))
  else max 0.5 stw3

/-- Navigation grid (`navigation-grid.js`): cell classification `grid[x][y]`
(`0` = water, `1` = land, modelled as a total function as JavaScript array
indexing is only performed after the caller's bounds check), geographic
bounds and resolution, and the column/row counts. -/
structure NavGrid where
  grid : ℤ → ℤ → ℕ
  west : ℚ
  south : ℚ
  resolution : ℚ
  cols : ℕ
  rows : ℕ

/-- Embedding of `NavigationGrid.latLngToGrid`:
`x = floor((lng - west) / resolution)`, `y = floor((lat - south) / resolution)`. -/
def latLngToGrid (g : NavGrid) (ll : LatLng) : Node :=
  ⟨⌊(ll.lng - g.west) / g.resolution⌋, ⌊(ll.lat - g.south) / g.resolution⌋⟩

/-- Embedding of `NavigationGrid.gridToLatLng`:
`lng = x * resolution + west`, `lat = y * resolution + south`. -/
def gridToLatLng (g : NavGrid) (x y : ℤ) : LatLng :=
  ⟨(y : ℚ) * g.resolution + g.south, (x : ℚ) * g.resolution + g.west⟩

/-- Bounds check performed at the top of `findPath` on a converted node:
`x < 0 || x >= cols || y < 0 || y >= rows`. -/
def nodeOutOfBounds (g : NavGrid) (n : Node) : Bool :=
  n.x < 0 ∨ (g.cols : ℤ) ≤ n.x ∨ n.y < 0 ∨ (g.rows : ℤ) ≤ n.y

/-- No-go zone: the first (outer) ring of the GeoJSON polygon, as a list of
`[lng, lat]` vertex pairs. -/
structure NoGoZone where
  ring : List (ℚ × ℚ)
deriving DecidableEq, Repr

/-- Edge list walked by the ray-casting loop of `isPointInNoGoZone`: vertex
`i` paired with vertex `j`, where `j` starts at the last index and then
trails `i` by one. -/
def ringEdges (ring : List (ℚ × ℚ)) : List ((ℚ × ℚ) × (ℚ × ℚ)) :=
  ring.zip (ring.getLastD (0, 0) :: ring)

/-- Ray-casting parity test of `isPointInNoGoZone` for a single polygon. -/
def pointInRing (pt : LatLng) (ring : List (ℚ × ℚ)) : Bool :=
  (ringEdges ring).foldl
    (fun isInside edge =>
      let xi := edge.1.1
      let yi := edge.1.2
      let xj := edge.2.1
      let yj := edge.2.2
      let intersect :=
        ((decide (pt.lat < yi)) != (decide (pt.lat < yj))) &&
          decide (pt.lng < (xj - xi) * (pt.lat - yi) / (yj - yi) + xi)
      if intersect then !isInside else isInside)
    false

/-- Embedding of `isPointInNoGoZone`: true when the point lies inside any of
the supplied polygons. -/
def isPointInNoGoZone (pt : LatLng) (noGoZones : List NoGoZone) : Bool :=
  noGoZones.any fun zone => pointInRing pt zone.ring

/-- Additive cost multiplier accumulated by `calculateSegmentCost` before the
no-go-zone scaling: starts at `1.0`, adds the five weather terms scaled by
the strategy's `weatherPenaltyWeight`, then adds the depth penalty at full
weight. -/
def segmentCostMultiplier (t : Trig) (boatBearing baseFuelPerKm : ℚ)
    (p : Params) (e : EnvData) (s : Strategy) (seaDepth : ℚ) : ℚ :=
  1.0 + weatherPenaltyWeight s * windCostMultiplier boatBearing baseFuelPerKm 1 p e
    + weatherPenaltyWeight s * currentCostMutiplier t boatBearing p e
    + weatherPenaltyWeight s * waveCostMutiplier boatBearing p e
    + weatherPenaltyWeight s * rainCostMutiplier t p e
    + weatherPenaltyWeight s * iceCostMutiplier t p e
    + depthCostMutiplier p seaDepth

/-- Result object of `calculateSegmentCost`.  The zero-distance branch of the
source returns an object without a `finalCost` property; consumers read
`fuelCost` first (`segRes.fuelCost ?? segRes.finalCost ?? 0`), so that field
is never consulted there and the embedding sets it to the `fuelCost` value. -/
structure SegResult where
  distanceKm : ℚ
  effectiveSpeedKmh : ℚ
  timeHours : ℚ
  fuelCost : ℚ
  finalCost : ℚ
deriving DecidableEq, Repr

/-- Embedding of `calculateSegmentCost` (canonical source).  `baseFuelPerKm`
is the finite value of `calculateFuelPerKm`; for `speedKmh <= 0` the source
would propagate IEEE `Infinity` through every product below, which `ℚ`
cannot represent, so the claims about this function are stated for positive
design speed.  The geometry (`calculateDistance` / `calculateBearing`) and
the environment lookup go through the `Geo` / `EnvCache` oracles. -/
def calculateSegmentCost (geo : Geo) (t : Trig) (env : EnvCache)
    (g : NavGrid) (p : Params) (s : Strategy) (noGoZones : List NoGoZone)
    (fromNode toNode : Node) : SegResult :=
  let baseFuelPerKm := baseFuelPerKmQ p
  let distanceKm := geo.dist fromNode toNode
  if distanceKm = 0 then
    ⟨distanceKm, p.speed * 1.852, 0, 0, 0⟩
  else
    let ll := gridToLatLng g fromNode.x fromNode.y
    let e := env.getData ll.lat ll.lng
    match e.depth with
    | none =>
      let penaltyFuel := baseFuelPerKm * distanceKm * 5
      ⟨distanceKm, p.speed * 1.852,
        distanceKm / max 0.0001 (p.speed * 1.852), penaltyFuel, penaltyFuel⟩
    | some seaDepth =>
      let boatBearing := geo.bearing fromNode toNode
      let costMultiplier0 :=
        segmentCostMultiplier t boatBearing baseFuelPerKm p e s seaDepth
      let toNodeLatLng := gridToLatLng g toNode.x toNode.y
      let costMultiplier :=
        if isPointInNoGoZone toNodeLatLng noGoZones then costMultiplier0 * 100
        else costMultiplier0
      let baseSpeedKmh := p.speed * 1.852
      let effectiveSpeedKmh := getEffectiveSpeed t baseSpeedKmh e boatBearing p
      let timeHours :=
        if 0 < effectiveSpeedKmh then distanceKm / effectiveSpeedKmh
        else infinityQ
      let fuelMultiplier :=
        max 0.5 (1.0 + (baseSpeedKmh - effectiveSpeedKmh) / max 1e-6 baseSpeedKmh)
      let finalCost := baseFuelPerKm * distanceKm * fuelWeight s *
        max 0.1 costMultiplier * fuelMultiplier
      ⟨distanceKm, effectiveSpeedKmh, timeHours, finalCost, finalCost⟩

/-- Embedding of `heuristic`: fuel-per-km times great-circle distance, except
that the `fastest` strategy degenerates to the raw distance.  Stated with
the finite `baseFuelPerKmQ`; the source multiplies by `calculateFuelPerKm`,
which agrees whenever `speedKmh > 0`. -/
def heuristic (geo : Geo) (p : Params) (s : Strategy) (a b : Node) : ℚ :=
  let distanceKm := geo.dist a b
  if s = .fastest then distanceKm else baseFuelPerKmQ p * distanceKm

/-- Neighbor offsets in the iteration order of the source's double loop
(`i` outer from `-1` to `1`, `j` inner, skipping `(0,0)`). -/
def neighborOffsets : List (ℤ × ℤ) :=
  [(-1, -1), (-1, 0), (-1, 1), (0, -1), (0, 1), (1, -1), (1, 0), (1, 1)]

/-- Embedding of `getNeighbors`: up to 8 neighbours, `x` wrapped modulo
`cols`, `y` clamped to `[0, rows)`, with the corner-cutting suppression for
diagonal moves whose two orthogonally adjacent cells are both land.  All
call sites pass nodes with `0 ≤ x < cols`, where the JavaScript `%` agrees
with `Int.emod`. -/
def getNeighbors (n : Node) (g : NavGrid) : List Node :=
  neighborOffsets.filterMap fun ij =>
    let i := ij.1
    let j := ij.2
    let newY := n.y + j
    if newY < 0 ∨ (g.rows : ℤ) ≤ newY then none
    else
      let newX := (n.x + i + g.cols) % (g.cols : ℤ)
      if i ≠ 0 ∧ j ≠ 0 ∧
          g.grid ((n.x + i + g.cols) % (g.cols : ℤ)) n.y = 1 ∧
          g.grid n.x (n.y + j) = 1 then
        none
      else some ⟨newX, newY⟩

/-- Search node of `runAStar`.  The source links nodes through mutable
`parent` pointers; since a pushed node object is never mutated after its
push, the parent chain is immutable and is modelled as the list of ancestor
cells with the `g` value each ancestor carried, nearest ancestor first. -/
structure SNode where
  x : ℤ
  y : ℤ
  g : ℚ
  h : ℚ
  f : ℚ
  chain : List (Node × ℚ)
deriving DecidableEq, Repr

/-- Placeholder used for JavaScript array reads; every read the source
performs is in bounds, so the placeholder value is never consulted. -/
def dummySNode : SNode := ⟨0, 0, 0, 0, 0, []⟩

/-- Embedding of `MinHeap.bubbleUp`, recursing towards the root. -/
def bubbleUpAux (heap : List SNode) (node : SNode) (index : ℕ) : List SNode :=
  if _h0 : index = 0 then heap
  else
    let parentIndex := (index - 1) / 2
    let parent := heap.getD parentIndex dummySNode
    if parent.f ≤ node.f then heap
    else bubbleUpAux ((heap.set parentIndex node).set index parent) node parentIndex
termination_by index
decreasing_by
  have := Nat.div_le_self (index - 1) 2
  omega

/-- Embedding of `MinHeap.push`: append, then bubble the new element up from
the last index. -/
def heapPush (heap : List SNode) (node : SNode) : List SNode :=
  bubbleUpAux (heap ++ [node]) node heap.length

/-- Embedding of `MinHeap.sinkDown`.  The loop moves strictly down the tree,
so it performs at most `heap.length` iterations; the explicit fuel below is
started at `heap.length + 1` and is therefore never exhausted. -/
def sinkDownAux (fuel : ℕ) (heap : List SNode) (node : SNode) (index : ℕ) :
    List SNode :=
  if fuel = 0 then heap
  else
    let length := heap.length
    let leftChildIdx := 2 * index + 1
    let rightChildIdx := 2 * index + 2
    let swapL : Option ℕ :=
      if leftChildIdx < length ∧ (heap.getD leftChildIdx dummySNode).f < node.f
      then some leftChildIdx else none
    let swap : Option ℕ :=
      if rightChildIdx < length ∧
          ((swapL = none ∧ (heap.getD rightChildIdx dummySNode).f < node.f) ∨
            (swapL ≠ none ∧ (heap.getD rightChildIdx dummySNode).f <
              (heap.getD (swapL.getD 0) dummySNode).f))
      then some rightChildIdx else swapL
    match swap with
    | none => heap
    | some s =>
      sinkDownAux (fuel - 1) ((heap.set index (heap.getD s dummySNode)).set s node) node s
termination_by fuel
decreasing_by omega

/-- Embedding of `MinHeap.pop`: return the root, move the last element to the
root and sink it down.  The empty case is unreachable (the caller checks
`size() > 0` first). -/
def heapPop (heap : List SNode) : SNode × List SNode :=
  match heap with
  | [] => (dummySNode, [])
  | [mn] => (mn, [])
  | mn :: rest =>
    let endN := rest.getLastD dummySNode
    let base := endN :: rest.dropLast
    (mn, sinkDownAux (base.length + 1) base endN 0)

/-- Land filter of the `runAStar` neighbour loop (the `CORRECTED` hard block):
a neighbour is skipped exactly when it is land and is not the destination
cell of this search. -/
def landNeighborSkipped (g : NavGrid) (endNode n : Node) : Bool :=
  decide (g.grid n.x n.y = 1) && !(decide (n.x = endNode.x) && decide (n.y = endNode.y))

/-- Lookup in the `gScores` map (newest binding first, like `Map.set`
overwriting). -/
def gsGet (gs : List ((ℤ × ℤ) × ℚ)) (key : ℤ × ℤ) : Option ℚ :=
  (gs.find? fun kv => kv.1 = key).map (·.2)

/-- Body of the `runAStar` neighbour loop for a single neighbour, threading
the open heap and the `gScores` map. -/
def expandNeighbor (geo : Geo) (t : Trig) (env : EnvCache) (g : NavGrid)
    (p : Params) (s : Strategy) (ng : List NoGoZone) (endNode : Node)
    (current : SNode) (closed : List (ℤ × ℤ))
    (acc : List SNode × List ((ℤ × ℤ) × ℚ)) (neighbor : Node) :
    List SNode × List ((ℤ × ℤ) × ℚ) :=
  let key := (neighbor.x, neighbor.y)
  if key ∈ closed then acc
  else if landNeighborSkipped g endNode neighbor then acc
  else
    let segRes := calculateSegmentCost geo t env g p s ng ⟨current.x, current.y⟩ neighbor
    let fuelForSegment := segRes.fuelCost
    let gScore := current.g + fuelForSegment
    let doPush : Bool :=
      match gsGet acc.2 key with
      | none => true
      | some old => decide (gScore < old)
    if doPush then
      let hN := heuristic geo p s neighbor endNode
      let newNode : SNode :=
        ⟨neighbor.x, neighbor.y, gScore, hN, gScore + hN,
          (⟨current.x, current.y⟩, current.g) :: current.chain⟩
      (heapPush acc.1 newNode, (key, gScore) :: acc.2)
    else acc

/-- Main loop of `runAStar` with an explicit fuel counter; the source's
`while (openSet.size() > 0)` loop performs at most `1 + 8 * cols * rows`
iterations (each iteration pops one heap entry, and pushes happen only from
the at most `cols * rows` expansions of not-yet-closed cells), so the fuel
chosen by `runAStar` below is never exhausted. -/
def runAStarLoop (geo : Geo) (t : Trig) (env : EnvCache) (g : NavGrid)
    (p : Params) (s : Strategy) (ng : List NoGoZone) (endNode : Node)
    (fuel : ℕ) (heap : List SNode) (closed : List (ℤ × ℤ))
    (gScores : List ((ℤ × ℤ) × ℚ)) : Option SNode :=
  if fuel = 0 then none
  else if heap.isEmpty then none
  else
    let pr := heapPop heap
    let current := pr.1
    let heap1 := pr.2
    if (current.x, current.y) ∈ closed then
      runAStarLoop geo t env g p s ng endNode (fuel - 1) heap1 closed gScores
    else if current.x = endNode.x ∧ current.y = endNode.y then some current
    else
      let closed1 := (current.x, current.y) :: closed
      let neighbors := getNeighbors ⟨current.x, current.y⟩ g
      let acc := neighbors.foldl
        (expandNeighbor geo t env g p s ng endNode current closed1)
        (heap1, gScores)
      runAStarLoop geo t env g p s ng endNode (fuel - 1) acc.1 closed1 acc.2
termination_by fuel
decreasing_by all_goals omega

/-- Fuel bound for the `runAStar` loop (an over-approximation of the largest
possible number of heap pushes, see `runAStarLoop`). -/
def aStarFuel (g : NavGrid) : ℕ := 9 * (g.cols * g.rows) + 9

/-- Embedding of `runAStar`: initial state has the start node pushed with
`g = 0` and `f = h = heuristic(start, end)`, and `gScores = {start ↦ 0}`. -/
def runAStar (geo : Geo) (t : Trig) (env : EnvCache) (g : NavGrid)
    (p : Params) (s : Strategy) (ng : List NoGoZone)
    (startNode endNode : Node) : Option SNode :=
  let initialHeuristic := heuristic geo p s startNode endNode
  let startSN : SNode :=
    ⟨startNode.x, startNode.y, 0, initialHeuristic, initialHeuristic, []⟩
  runAStarLoop geo t env g p s ng endNode (aStarFuel g) [startSN] []
    [((startNode.x, startNode.y), 0)]

/-- Output route point.  The source creates points with `lat`/`lng`/`onLand`
/`totalFuel` and later adds the per-segment annotation fields in
`recalculateTotalFuel`; the embedding carries all fields from the start,
initialised to `0` where the source would leave them `undefined`. -/
structure PathPoint where
  lat : ℚ
  lng : ℚ
  onLand : Bool
  totalFuel : ℚ
  totalTime : ℚ
  segmentSpeed : ℚ
  segmentDistance : ℚ
  segmentTime : ℚ
  segmentFuel : ℚ
deriving DecidableEq, Repr

/-- Placeholder route point for indexed reads in theorem statements. -/
def dummyPoint : PathPoint := ⟨0, 0, false, 0, 0, 0, 0, 0, 0⟩

/-- Point construction shared by `findPathToNearestWater` and
`reconstructAndFormatPath`: geographic position, land flag and a cumulative
fuel value. -/
def mkBasePoint (g : NavGrid) (n : Node) (fuelV : ℚ) : PathPoint :=
  let ll := gridToLatLng g n.x n.y
  ⟨ll.lat, ll.lng, decide (g.grid n.x n.y = 1), fuelV, 0, 0, 0, 0, 0⟩

/-- Embedding of `reconstructAndFormatPath`: walk the parent chain from the
final node and reverse, annotating each point with `initialFuel + g`. -/
def reconstructAndFormatPath (n : SNode) (g : NavGrid) (initialFuel : ℚ) :
    List PathPoint :=
  (((⟨n.x, n.y⟩ : Node), n.g) :: n.chain).reverse.map
    fun nc => mkBasePoint g nc.1 (initialFuel + nc.2)

/-- Queue entry of the `findPathToNearestWater` BFS (node plus ancestor
chain, nearest first; same parent-pointer modelling as `SNode`). -/
structure BNode where
  node : Node
  chain : List Node
deriving DecidableEq, Repr

/-- Main loop of `findPathToNearestWater` with an explicit fuel counter; each
enqueue is guarded by the `visited` set, so the loop runs at most
`1 + cols * rows` times and the fuel chosen below is never exhausted. -/
def bfsLoop (g : NavGrid) (fuel : ℕ) (queue : List BNode)
    (visited : List (ℤ × ℤ)) : Option (List PathPoint × Node) :=
  if fuel = 0 then none
  else
    match queue with
    | [] => none
    | cur :: queue1 =>
      if g.grid cur.node.x cur.node.y = 0 then
        some ((cur.node :: cur.chain).reverse.map (fun nd => mkBasePoint g nd 0),
          cur.node)
      else
        let step := (getNeighbors cur.node g).foldl
          (fun acc nb =>
            let key := (nb.x, nb.y)
            if key ∈ acc.2 then acc
            else (acc.1 ++ [(⟨nb, cur.node :: cur.chain⟩ : BNode)], key :: acc.2))
          (queue1, visited)
        bfsLoop g (fuel - 1) step.1 step.2
termination_by fuel
decreasing_by omega

/-- Fuel bound for the BFS loop. -/
def bfsFuel (g : NavGrid) : ℕ := 9 * (g.cols * g.rows) + 9

/-- Embedding of `findPathToNearestWater`: unweighted BFS from a (normally
on-land) node to the first water node dequeued; `none` when the queue
exhausts. -/
def findPathToNearestWater (startNode : Node) (g : NavGrid) :
    Option (List PathPoint × Node) :=
  bfsLoop g (bfsFuel g) [⟨startNode, []⟩] [(startNode.x, startNode.y)]

/-- Fuel cost assigned by the `recalculateTotalFuel` loop to the segment
`prev → pt`: zero when either endpoint is flagged `onLand`, otherwise the
`fuelCost` of `calculateSegmentCost` re-invoked on the two cells (the
`segObj.fuelCost ?? segObj.finalCost ?? 0` chain always finds `fuelCost`). -/
def segmentFuelBetween (geo : Geo) (t : Trig) (env : EnvCache) (g : NavGrid)
    (p : Params) (s : Strategy) (ng : List NoGoZone) (prev pt : PathPoint) : ℚ :=
  if !pt.onLand && !prev.onLand then
    (calculateSegmentCost geo t env g p s ng
      (latLngToGrid g ⟨prev.lat, prev.lng⟩) (latLngToGrid g ⟨pt.lat, pt.lng⟩)).fuelCost
  else 0

/-- Time assigned by the `recalculateTotalFuel` loop to the segment
`prev → pt` (the `timeHours` of the segment result for water segments, zero
for segments touching land). -/
def segmentTimeBetween (geo : Geo) (t : Trig) (env : EnvCache) (g : NavGrid)
    (p : Params) (s : Strategy) (ng : List NoGoZone) (prev pt : PathPoint) : ℚ :=
  if !pt.onLand && !prev.onLand then
    (calculateSegmentCost geo t env g p s ng
      (latLngToGrid g ⟨prev.lat, prev.lng⟩) (latLngToGrid g ⟨pt.lat, pt.lng⟩)).timeHours
  else 0

/-- Effective speed recorded by the `recalculateTotalFuel` loop for the
segment `prev → pt` (zero for segments touching land, where the source
leaves the initialisation value `0`). -/
def segmentSpeedBetween (geo : Geo) (t : Trig) (env : EnvCache) (g : NavGrid)
    (p : Params) (s : Strategy) (ng : List NoGoZone) (prev pt : PathPoint) : ℚ :=
  if !pt.onLand && !prev.onLand then
    (calculateSegmentCost geo t env g p s ng
      (latLngToGrid g ⟨prev.lat, prev.lng⟩) (latLngToGrid g ⟨pt.lat, pt.lng⟩)).effectiveSpeedKmh
  else 0

/-- Per-segment loop of `recalculateTotalFuel` from index `1` onward.  The
source reads `path[i-1]` after having updated only its cumulative-fuel
fields, so passing the un-updated previous point (whose `lat`/`lng`/`onLand`
are identical) is faithful. -/
def recalcAux (geo : Geo) (t : Trig) (env : EnvCache) (g : NavGrid)
    (p : Params) (s : Strategy) (ng : List NoGoZone) (prev : PathPoint)
    (cumF cumT : ℚ) : List PathPoint → List PathPoint
  | [] => []
  | pt :: rest =>
    let fromN := latLngToGrid g ⟨prev.lat, prev.lng⟩
    let toN := latLngToGrid g ⟨pt.lat, pt.lng⟩
    let distanceKm := geo.dist fromN toN
    let fuelCost := segmentFuelBetween geo t env g p s ng prev pt
    let timeHours := segmentTimeBetween geo t env g p s ng prev pt
    let effSpeed := segmentSpeedBetween geo t env g p s ng prev pt
    let cumF1 := cumF + fuelCost
    let cumT1 := cumT + timeHours
    { pt with
      totalFuel := cumF1
      totalTime := cumT1
      segmentSpeed := effSpeed
      segmentDistance := distanceKm
      segmentTime := timeHours
      segmentFuel := fuelCost } ::
      recalcAux geo t env g p s ng pt cumF1 cumT1 rest

/-- Embedding of `recalculateTotalFuel`: paths shorter than two points are
returned unchanged; otherwise the first point's totals are reset to zero and
every later point is re-annotated by the linear pass. -/
def recalculateTotalFuel (geo : Geo) (t : Trig) (env : EnvCache) (g : NavGrid)
    (p : Params) (s : Strategy) (ng : List NoGoZone) (path : List PathPoint) :
    List PathPoint :=
  match path with
  | [] => []
  | [p0] => [p0]
  | p0 :: rest =>
    { p0 with totalFuel := 0, totalTime := 0 } ::
      recalcAux geo t env g p s ng p0 0 0 rest

/-- Embedding of the per-strategy body of `findPath`: bounds check, optional
shore bridging at both ends, the A* water search, path splicing (with the
source's junction-point elisions) and the final recomputation pass.  Every
degenerate outcome produces `[]`; no branch can fail. -/
def findPathStrategy (geo : Geo) (t : Trig) (env : EnvCache) (g : NavGrid)
    (startLatLng endLatLng : LatLng) (p : Params) (ng : List NoGoZone)
    (strategy : Strategy) : List PathPoint :=
  let originalStartNode := latLngToGrid g startLatLng
  let originalEndNode := latLngToGrid g endLatLng
  if nodeOutOfBounds g originalStartNode ∨ nodeOutOfBounds g originalEndNode then []
  else
    let isStartOnLand := g.grid originalStartNode.x originalStartNode.y = 1
    let isEndOnLand := g.grid originalEndNode.x originalEndNode.y = 1
    let startInfo := if isStartOnLand then findPathToNearestWater originalStartNode g
      else some ([], originalStartNode)
    match startInfo with
    | none => []
    | some si =>
      let pathFromStart := si.1
      let aStarStartNode := si.2
      let endInfo := if isEndOnLand then findPathToNearestWater originalEndNode g
        else some ([], originalEndNode)
      match endInfo with
      | none => []
      | some ei =>
        let pathToEnd := ei.1
        let aStarEndNode := ei.2
        match runAStar geo t env g p strategy ng aStarStartNode aStarEndNode with
        | none => []
        | some waterPathResult =>
          let waterPath := reconstructAndFormatPath waterPathResult g 0
          let fp1 := if pathFromStart ≠ [] then
              (if waterPath ≠ [] then pathFromStart.dropLast else pathFromStart)
            else []
          let fp2 := fp1 ++ waterPath
          let fp3 := if pathToEnd ≠ [] then
              fp2 ++ (if fp2 ≠ [] then pathToEnd.drop 1 else pathToEnd).reverse
            else fp2
          recalculateTotalFuel geo t env g p strategy ng fp3

/-- Embedding of `findPath`: the three strategies are computed independently
(the source's loop fills `allPaths[strategy]` slot by slot and a failed
strategy `continue`s to the next one), so the result is a total function
from strategies to paths. -/
def findPath (geo : Geo) (t : Trig) (env : EnvCache) (g : NavGrid)
    (startLatLng endLatLng : LatLng) (p : Params) (ng : List NoGoZone) :
    Strategy → List PathPoint :=
  fun strategy => findPathStrategy geo t env g startLatLng endLatLng p ng strategy

/-! Concrete oracle instances shared by witnesses and counterexamples.  The
path-membership and land-flag facts established below do not depend on the
oracle values; where a claim does depend on an oracle property (for example
nonnegativity or the triangle inequality of the haversine distance), that
property is an explicit hypothesis of the claim's theorem and the instances
below are only used to discharge it at concrete inputs. -/

/-- Trig oracle whose functions all return zero; the scenarios that use it
never reach a transcendental call. -/
def zeroTrig : Trig := ⟨fun _ => 0, fun _ => 0, fun _ => 0, fun _ _ => 0⟩

/-- Discrete-metric geometry oracle: distance `0` on the diagonal and `1`
between distinct cells, bearing `0`. -/
def unitGeo : Geo := ⟨fun a b => if a = b then 0 else 1, fun _ _ => 0⟩

/-- Geometry oracle with constant zero distance, for the zero-distance
segment claim. -/
def zeroGeo : Geo := ⟨fun _ _ => 0, fun _ _ => 0⟩

/-- Environment oracle: calm deep water everywhere (depth 1000 m, no wind /
current / waves / rain / ice). -/
def calmEnvCache : EnvCache :=
  ⟨fun _ _ => { emptyEnv with depth := some 1000 }⟩

/-- Environment oracle with no data anywhere (every field `null`). -/
def nullEnvCache : EnvCache := ⟨fun _ _ => emptyEnv⟩

/-- Representative vessel: 10 kn, 100 hp, fuel rate 0.01, weight factor 1,
draft 5 m, beam 10 m, length 100 m. -/
def sampleParams : Params := ⟨10, 100, 0.01, 0.005, 1000, 0, 1, 1, 5, 10, 100⟩

/-- Vessel with positive speed and zero rated power (`hpReq = 0`), making
the fuel-per-km formula evaluate to zero. -/
def c3Params : Params := ⟨10, 0, 1, 0.005, 100, 0, 1, 1, 5, 10, 100⟩

/-- Vessel with positive speed and a negative rated power, a malformed but
accepted parameter set. -/
def c9Params : Params := ⟨10, -100, 1, 0.005, 1000, 0, 1, 1, 5, 10, 100⟩

/-- C3 counterexample: for the vessel `c3Params` (positive speed, zero
`hpReq`) the claimed formula `(hpReq * 0.95 * fuelRate * weightFactor) /
speedKmh` evaluates to `0`, but `calculateFuelPerKm` returns the `|| 0.1`
fallback `0.1 ≠ 0`, so the claim's equation fails at this input. -/
theorem claimC3_counterexample :
    0 < c3Params.speed ∧
    (c3Params.hpReq * 0.95 * c3Params.fuelRate *
        (1 + c3Params.k * (c3Params.load / c3Params.baseWeight))) /
        (c3Params.speed * 1.852) = 0 ∧
    calculateFuelPerKm c3Params = some 0.1 ∧ (0.1 : ℚ) ≠ 0 := by
  refine ⟨by norm_num [c3Params], by norm_num [c3Params], ?_, by norm_num⟩
  norm_num [calculateFuelPerKm, baseFuelPerKmQ, fuelPerKmFormula, weightFactor,
    speedKmh, c3Params]

/-- C3 (amended): for every vessel with positive `baseWeight`,
`calculateFuelPerKm` returns IEEE infinity (`none`) whenever
`speedKmh ≤ 0`, and for positive `speedKmh` it returns
`(hpReq * 0.95 * fuelRate * weightFactor * F * S) / speedKmh` — with
`weightFactor = 1 + k * (load / baseWeight)` when `baseWeight + load > 0`
and `1` otherwise — except that a formula value of exactly `0` falls back
to `0.1`. -/
theorem claimC3_theorem (p : Params) (hbw : 0 < p.baseWeight) :
    (speedKmh p ≤ 0 → calculateFuelPerKm p = none) ∧
    (0 < speedKmh p →
      calculateFuelPerKm p =
        some (if (p.hpReq * 0.95) * p.fuelRate *
            (if 0 < p.baseWeight + p.load then 1 + p.k * (p.load / p.baseWeight) else 1) *
            p.F * p.S / (p.speed * 1.852) = 0 then 0.1
          else (p.hpReq * 0.95) * p.fuelRate *
            (if 0 < p.baseWeight + p.load then 1 + p.k * (p.load / p.baseWeight) else 1) *
            p.F * p.S / (p.speed * 1.852))) := by
  constructor
  · intro hle
    simp [calculateFuelPerKm, hle]
  · intro hlt
    have hne : ¬ (p.speed * 1.852 ≤ 0) := by simpa [speedKmh] using not_le.mpr hlt
    simp only [calculateFuelPerKm, baseFuelPerKmQ, fuelPerKmFormula, weightFactor,
      speedKmh, if_neg hne]

/-- Witness for `claimC3_theorem` at the representative vessel. -/
theorem claimC3_witness :
    (0 : ℚ) < sampleParams.baseWeight ∧ 0 < speedKmh sampleParams ∧
    calculateFuelPerKm sampleParams =
      some (if (sampleParams.hpReq * 0.95) * sampleParams.fuelRate *
          (if 0 < sampleParams.baseWeight + sampleParams.load then
            1 + sampleParams.k * (sampleParams.load / sampleParams.baseWeight) else 1) *
          sampleParams.F * sampleParams.S / (sampleParams.speed * 1.852) = 0 then 0.1
        else (sampleParams.hpReq * 0.95) * sampleParams.fuelRate *
          (if 0 < sampleParams.baseWeight + sampleParams.load then
            1 + sampleParams.k * (sampleParams.load / sampleParams.baseWeight) else 1) *
          sampleParams.F * sampleParams.S / (sampleParams.speed * 1.852)) :=
  ⟨by norm_num [sampleParams], by norm_num [sampleParams, speedKmh],
    (claimC3_theorem sampleParams (by norm_num [sampleParams])).2
      (by norm_num [sampleParams, speedKmh])⟩

/-- C9 counterexample: for the vessel `c9Params` (positive speed, negative
`hpReq`) the formula value is negative and truthy, so `calculateFuelPerKm`
returns a negative finite number — neither `+Infinity` nor strictly
positive. -/
theorem claimC9_counterexample :
    0 < c9Params.speed ∧ (calculateFuelPerKm c9Params).isSome = true ∧
    (calculateFuelPerKm c9Params).getD 0 < 0 := by
  refine ⟨by norm_num [c9Params], ?_, ?_⟩ <;>
    norm_num [calculateFuelPerKm, baseFuelPerKmQ, fuelPerKmFormula, weightFactor,
      speedKmh, c9Params]

/-- C9 (amended): for every vessel whose `hpReq`, `fuelRate`, `k`, `load`,
`F`, `S` are nonnegative and whose `baseWeight` is positive,
`calculateFuelPerKm` returns `+Infinity` (`none`) exactly when
`speedKmh ≤ 0`, and otherwise a strictly positive finite number (a zero or
missing numerator falls back to `0.1`; the result is never `0`). -/
theorem claimC9_theorem (p : Params) (hhp : 0 ≤ p.hpReq) (hfr : 0 ≤ p.fuelRate)
    (hk : 0 ≤ p.k) (hload : 0 ≤ p.load) (hbw : 0 < p.baseWeight)
    (hF : 0 ≤ p.F) (hS : 0 ≤ p.S) :
    (speedKmh p ≤ 0 → calculateFuelPerKm p = none) ∧
    (0 < speedKmh p → ∃ v : ℚ, calculateFuelPerKm p = some v ∧ 0 < v) := by
  constructor
  · intro hle
    simp [calculateFuelPerKm, hle]
  · intro hlt
    refine ⟨baseFuelPerKmQ p, by simp [calculateFuelPerKm, not_le.mpr hlt], ?_⟩
    have hwf : 0 ≤ weightFactor p := by
      unfold weightFactor
      split
      · have : 0 ≤ p.load / p.baseWeight := div_nonneg hload hbw.le
        nlinarith
      · norm_num
    have hnn : 0 ≤ fuelPerKmFormula p := by
      unfold fuelPerKmFormula
      exact div_nonneg (by positivity) hlt.le
    unfold baseFuelPerKmQ
    split
    · norm_num
    · rename_i hne
      exact lt_of_le_of_ne hnn (Ne.symm hne)

/-- Witness for `claimC9_theorem` at the representative vessel. -/
theorem claimC9_witness :
    0 < speedKmh sampleParams ∧
    ∃ v : ℚ, calculateFuelPerKm sampleParams = some v ∧ 0 < v := by
  refine ⟨by norm_num [sampleParams, speedKmh], ?_⟩
  exact (claimC9_theorem sampleParams (by norm_num [sampleParams])
    (by norm_num [sampleParams]) (by norm_num [sampleParams])
    (by norm_num [sampleParams]) (by norm_num [sampleParams])
    (by norm_num [sampleParams]) (by norm_num [sampleParams])).2
    (by norm_num [sampleParams, speedKmh])

/-- C6: depth penalty shape.  For every vessel with positive draft and every
non-null depth, `depthCostMutiplier` is `0` when `depth/draft > 5`, a flat
`5` when `depth/draft < 1.2`, and `min (1/(ratio - 1)) 1` for ratios in
between; and `calculateSegmentCost` adds it to the cost multiplier at full
weight under every strategy, while the five weather terms are scaled by the
strategy's `weatherPenaltyWeight`. -/
theorem claimC6_theorem (p : Params) (d : ℚ) (hdraft : 0 < p.draft) :
    (5 < d / p.draft → depthCostMutiplier p d = 0) ∧
    (d / p.draft < 1.2 → depthCostMutiplier p d = 5) ∧
    (1.2 ≤ d / p.draft → d / p.draft ≤ 5 →
      depthCostMutiplier p d = min (1 / (d / p.draft - 1)) 1) ∧
    (∀ (t : Trig) (bearing bfk : ℚ) (e : EnvData) (s : Strategy) (seaDepth : ℚ),
      segmentCostMultiplier t bearing bfk p e s seaDepth =
        1 + weatherPenaltyWeight s *
          (windCostMultiplier bearing bfk 1 p e + currentCostMutiplier t bearing p e +
            waveCostMutiplier bearing p e + rainCostMutiplier t p e +
            iceCostMutiplier t p e) + depthCostMutiplier p seaDepth) := by
  refine ⟨?_, ?_, ?_, ?_⟩
  · intro h5
    simp [depthCostMutiplier, h5]
  · intro h12
    rw [depthCostMutiplier]
    rw [if_neg (by push_neg; nlinarith), if_pos h12]
  · intro h12 h5
    rw [depthCostMutiplier]
    rw [if_neg (by push_neg; exact h5), if_neg (by push_neg; exact h12)]
    have hmax : max (d / p.draft - 1) 0.1 = d / p.draft - 1 := by
      rw [max_eq_left]; nlinarith
    rw [hmax]
    norm_num
  · intro t bearing bfk e s seaDepth
    rw [segmentCostMultiplier]
    ring

/-- Witness for `claimC6_theorem`: a 5 m draft vessel in 100 m of water has
a zero depth penalty (ratio 20 > 5). -/
theorem claimC6_witness :
    (0 : ℚ) < sampleParams.draft ∧ 5 < (100 : ℚ) / sampleParams.draft ∧
    depthCostMutiplier sampleParams 100 = 0 :=
  ⟨by norm_num [sampleParams], by norm_num [sampleParams],
    (claimC6_theorem sampleParams 100 (by norm_num [sampleParams])).1
      (by norm_num [sampleParams])⟩

/-- C8: zero-distance segment totality.  Whenever the computed great-circle
distance between the two cells is `0`, `calculateSegmentCost` returns a
segment with exactly zero fuel cost and zero time (and the base speed as
effective speed); over `ℚ` every field is a well-defined rational, the
embedding's counterpart of "no `NaN`/`undefined`". -/
theorem claimC8_theorem (geo : Geo) (t : Trig) (env : EnvCache) (g : NavGrid)
    (p : Params) (s : Strategy) (ng : List NoGoZone) (fromNode toNode : Node)
    (hdist : geo.dist fromNode toNode = 0) :
    (calculateSegmentCost geo t env g p s ng fromNode toNode).fuelCost = 0 ∧
    (calculateSegmentCost geo t env g p s ng fromNode toNode).timeHours = 0 ∧
    (calculateSegmentCost geo t env g p s ng fromNode toNode).distanceKm = 0 ∧
    (calculateSegmentCost geo t env g p s ng fromNode toNode).effectiveSpeedKmh =
      p.speed * 1.852 := by
  rw [calculateSegmentCost]
  simp [hdist]

/-- Witness for `claimC8_theorem` under the constant-zero geometry oracle. -/
theorem claimC8_witness :
    zeroGeo.dist ⟨0, 0⟩ ⟨1, 0⟩ = 0 ∧
    (calculateSegmentCost zeroGeo zeroTrig calmEnvCache
      ⟨fun _ _ => 0, 0, 0, 1, 5, 1⟩ sampleParams .balanced [] ⟨0, 0⟩ ⟨1, 0⟩).fuelCost = 0 :=
  ⟨rfl, (claimC8_theorem zeroGeo zeroTrig calmEnvCache ⟨fun _ _ => 0, 0, 0, 1, 5, 1⟩
    sampleParams .balanced [] ⟨0, 0⟩ ⟨1, 0⟩ rfl).1⟩

/-- Band selection only depends on the `bmax` bounds (and returns the band
whose `base`/`bmax` the caller reads): transforming every band by a
`bmax`/`base`-preserving function commutes with `selectIceBand`. -/
theorem selectIceBand_navigable (u : IceBand → IceBand)
    (hu : ∀ b, (u b).bmax = b.bmax ∧ (u b).base = b.base)
    (dflt : IceBand) (conc : ℚ) (l : List IceBand) : ∀ lb : ℚ,
    (selectIceBand (u dflt) conc lb (l.map u)).1.bmax =
      (selectIceBand dflt conc lb l).1.bmax ∧
    (selectIceBand (u dflt) conc lb (l.map u)).1.base =
      (selectIceBand dflt conc lb l).1.base ∧
    (selectIceBand (u dflt) conc lb (l.map u)).2 =
      (selectIceBand dflt conc lb l).2 := by
  induction l with
  | nil =>
    intro lb
    exact ⟨(hu dflt).1, (hu dflt).2, rfl⟩
  | cons b bs ih =>
    intro lb
    simp only [List.map_cons, selectIceBand, (hu b).1]
    split
    · exact ⟨(hu b).1, (hu b).2, rfl⟩
    · exact ih b.bmax

/-- C10: ice never blocks a cell.  For every ice concentration
`0 < c ≤ 1` and positive displacement the multiplier is clamped into
`[0, 3]` (in particular the close-pack and consolidated bands, flagged
`navigable: false` in the table, still yield a finite, traversable
penalty), and the `navigable` flags are never consulted: any reassignment
of the flags leaves the multiplier unchanged. -/
theorem claimC10_theorem (t : Trig) (p : Params) (e : EnvData) (c : ℚ)
    (hc : e.ice_conc = some c) (h0 : 0 < c) (_h1 : c ≤ 1)
    (_hdisp : 0 < p.baseWeight + p.load) :
    0 ≤ iceCostMutiplier t p e ∧ iceCostMutiplier t p e ≤ 3 ∧
    ∀ nav : IceBand → Bool,
      iceCostMutiplierWith (iceBands.map fun b => { b with navigable := nav b })
        t p e = iceCostMutiplier t p e := by
  refine ⟨?_, ?_, ?_⟩
  · simp only [iceCostMutiplier, iceCostMutiplierWith, hc]
    rw [if_neg (not_le.mpr h0)]
    exact le_max_left 0 _
  · simp only [iceCostMutiplier, iceCostMutiplierWith, hc]
    rw [if_neg (not_le.mpr h0)]
    exact max_le (by norm_num) ((min_le_right _ _).trans (by norm_num))
  · intro nav
    set u : IceBand → IceBand := fun b => { b with navigable := nav b } with hu_def
    have hu : ∀ b, (u b).bmax = b.bmax ∧ (u b).base = b.base := fun b => ⟨rfl, rfl⟩
    have hlast : (iceBands.map u).getLastD ⟨1, 1, false⟩ =
        u (iceBands.getLastD ⟨1, 1, false⟩) := by
      simp [iceBands]
    simp only [iceCostMutiplier, iceCostMutiplierWith, hc]
    rw [if_neg (not_le.mpr h0), if_neg (not_le.mpr h0)]
    rw [hlast]
    have key := selectIceBand_navigable u hu (iceBands.getLastD ⟨1, 1, false⟩) c
      iceBands 0
    rw [key.1, key.2.1, key.2.2]

/-- Environmental sample with close-pack ice (concentration 0.9, a band the
table flags `navigable: false`). -/
def c10Env : EnvData := { emptyEnv with ice_conc := some 0.9 }

/-- Witness for `claimC10_theorem` at concentration 0.9. -/
theorem claimC10_witness :
    c10Env.ice_conc = some 0.9 ∧ (0 : ℚ) < 0.9 ∧ (0.9 : ℚ) ≤ 1 ∧
    0 < sampleParams.baseWeight + sampleParams.load ∧
    (0 ≤ iceCostMutiplier zeroTrig sampleParams c10Env ∧
      iceCostMutiplier zeroTrig sampleParams c10Env ≤ 3 ∧
      ∀ nav : IceBand → Bool,
        iceCostMutiplierWith (iceBands.map fun b => { b with navigable := nav b })
          zeroTrig sampleParams c10Env = iceCostMutiplier zeroTrig sampleParams c10Env) :=
  ⟨rfl, by norm_num, by norm_num, by norm_num [sampleParams],
    claimC10_theorem zeroTrig sampleParams c10Env 0.9 rfl (by norm_num)
      (by norm_num) (by norm_num [sampleParams])⟩

/-- Nonnegativity of the finite fuel-per-km value for physically meaningful
vessel parameters (what the haversine-based cost model relies on). -/
theorem baseFuelPerKmQ_nonneg (p : Params) (hs : 0 < speedKmh p)
    (hhp : 0 ≤ p.hpReq) (hfr : 0 ≤ p.fuelRate) (hk : 0 ≤ p.k)
    (hload : 0 ≤ p.load) (hbw : 0 ≤ p.baseWeight) (hF : 0 ≤ p.F) (hS : 0 ≤ p.S) :
    0 ≤ baseFuelPerKmQ p := by
  have hwf : 0 ≤ weightFactor p := by
    unfold weightFactor
    split
    · have : 0 ≤ p.load / p.baseWeight := div_nonneg hload hbw
      nlinarith
    · norm_num
  have hnn : 0 ≤ fuelPerKmFormula p := by
    unfold fuelPerKmFormula
    exact div_nonneg (by positivity) hs.le
  unfold baseFuelPerKmQ
  split
  · norm_num
  · exact hnn

/-- Every branch of `calculateSegmentCost` yields a nonnegative fuel cost
once the base fuel-per-km value and the distance are nonnegative: the
zero-distance branch returns `0`, the missing-depth branch returns a
`5 ×` base cost, and the main branch multiplies nonnegative factors (the
cost-multiplier and fuel-multiplier floors `max 0.1 ·` and `max 0.5 ·` are
nonnegative whatever the weather terms contribute). -/
theorem calculateSegmentCost_fuelCost_nonneg (geo : Geo) (t : Trig)
    (env : EnvCache) (g : NavGrid) (p : Params) (s : Strategy)
    (ng : List NoGoZone) (a b : Node) (hbase : 0 ≤ baseFuelPerKmQ p)
    (hdist : 0 ≤ geo.dist a b) :
    0 ≤ (calculateSegmentCost geo t env g p s ng a b).fuelCost := by
  simp only [calculateSegmentCost]
  by_cases h0 : geo.dist a b = 0
  · rw [if_pos h0]
  · rw [if_neg h0]
    cases hd : (env.getData (gridToLatLng g a.x a.y).lat
        (gridToLatLng g a.x a.y).lng).depth with
    | none =>
      simp only [hd]
      exact mul_nonneg (mul_nonneg hbase hdist) (by norm_num)
    | some dep =>
      simp only [hd]
      have h1 : (0 : ℚ) ≤ fuelWeight s := by norm_num [fuelWeight]
      have h2 : ∀ cm : ℚ, (0 : ℚ) ≤ max 0.1 cm :=
        fun cm => le_trans (by norm_num) (le_max_left 0.1 cm)
      have h3 : ∀ fm : ℚ, (0 : ℚ) ≤ max 0.5 fm :=
        fun fm => le_trans (by norm_num) (le_max_left 0.5 fm)
      exact mul_nonneg (mul_nonneg (mul_nonneg (mul_nonneg hbase hdist) h1) (h2 _)) (h3 _)

/-- The per-segment fuel of the recomputation pass is nonnegative: zero for
land-touching segments, a nonnegative segment cost otherwise. -/
theorem segmentFuelBetween_nonneg (geo : Geo) (t : Trig) (env : EnvCache)
    (g : NavGrid) (p : Params) (s : Strategy) (ng : List NoGoZone)
    (hbase : 0 ≤ baseFuelPerKmQ p) (hdist : ∀ a b, 0 ≤ geo.dist a b)
    (prev pt : PathPoint) :
    0 ≤ segmentFuelBetween geo t env g p s ng prev pt := by
  unfold segmentFuelBetween
  split
  · exact calculateSegmentCost_fuelCost_nonneg geo t env g p s ng _ _ hbase (hdist _ _)
  · exact le_refl 0

/-- Cumulative totals of the recomputation loop form an ascending chain from
the incoming accumulator whenever every per-segment fuel is nonnegative. -/
theorem recalcAux_chain (geo : Geo) (t : Trig) (env : EnvCache) (g : NavGrid)
    (p : Params) (s : Strategy) (ng : List NoGoZone)
    (H : ∀ prev pt, 0 ≤ segmentFuelBetween geo t env g p s ng prev pt) :
    ∀ (rest : List PathPoint) (prev : PathPoint) (cumF cumT : ℚ),
      List.Chain (· ≤ ·) cumF
        ((recalcAux geo t env g p s ng prev cumF cumT rest).map (·.totalFuel)) := by
  intro rest
  induction rest with
  | nil => intro prev cumF cumT; exact List.Chain.nil
  | cons pt rest ih =>
    intro prev cumF cumT
    simp only [recalcAux, List.map_cons]
    exact List.Chain.cons (le_add_of_nonneg_right (H prev pt)) (ih pt _ _)

/-- The `totalFuel` annotations produced by `recalculateTotalFuel` are
monotone along the path whenever every per-segment fuel is nonnegative. -/
theorem recalculateTotalFuel_chain (geo : Geo) (t : Trig) (env : EnvCache)
    (g : NavGrid) (p : Params) (s : Strategy) (ng : List NoGoZone)
    (H : ∀ prev pt, 0 ≤ segmentFuelBetween geo t env g p s ng prev pt)
    (path : List PathPoint) :
    List.Chain' (· ≤ ·)
      ((recalculateTotalFuel geo t env g p s ng path).map (·.totalFuel)) := by
  match path with
  | [] => simp [recalculateTotalFuel]
  | [p0] => simp [recalculateTotalFuel]
  | p0 :: pt :: rest =>
    simp only [recalculateTotalFuel, List.map_cons]
    exact recalcAux_chain geo t env g p s ng H (pt :: rest) p0 0 0

/-- Every branch of `findPathStrategy` produces either the empty path or the
output of the final recomputation pass on the assembled path. -/
theorem findPathStrategy_cases (geo : Geo) (t : Trig) (env : EnvCache)
    (g : NavGrid) (startLatLng endLatLng : LatLng) (p : Params)
    (ng : List NoGoZone) (strategy : Strategy) :
    findPathStrategy geo t env g startLatLng endLatLng p ng strategy = [] ∨
    ∃ fp : List PathPoint,
      findPathStrategy geo t env g startLatLng endLatLng p ng strategy =
        recalculateTotalFuel geo t env g p strategy ng fp := by
  simp only [findPathStrategy]
  repeat' split
  all_goals first | exact Or.inl rfl | exact Or.inr ⟨_, rfl⟩

/-- Index form of the chain of cumulative fuel values. -/
theorem recalculateTotalFuel_mono_getD (geo : Geo) (t : Trig) (env : EnvCache)
    (g : NavGrid) (p : Params) (s : Strategy) (ng : List NoGoZone)
    (H : ∀ prev pt, 0 ≤ segmentFuelBetween geo t env g p s ng prev pt)
    (path : List PathPoint) (i : ℕ)
    (hi : i + 1 < (recalculateTotalFuel geo t env g p s ng path).length) :
    ((recalculateTotalFuel geo t env g p s ng path).getD i dummyPoint).totalFuel ≤
      ((recalculateTotalFuel geo t env g p s ng path).getD (i + 1) dummyPoint).totalFuel := by
  have hchain := recalculateTotalFuel_chain geo t env g p s ng H path
  set out := recalculateTotalFuel geo t env g p s ng path with hout
  have hlen : (out.map (·.totalFuel)).length = out.length := List.length_map _ _
  have h1 : i < out.length := by omega
  have h2 : i + 1 < out.length := hi
  have := List.chain'_iff_get.mp hchain i (by simp only [hlen]; omega)
  simp only [List.get_eq_getElem, List.getElem_map] at this
  rw [List.getD_eq_getElem _ _ h1, List.getD_eq_getElem _ _ h2]
  exact this

/-- C5: fuel monotonicity.  For every route request with physically
meaningful vessel parameters (positive design speed, nonnegative power,
fuel-rate, weight and correction factors) and the nonnegative haversine
distance oracle, every strategy's returned path has nondecreasing
`totalFuel` annotations: the value at point `i + 1` is at least the value at
point `i`. -/
theorem claimC5_theorem (geo : Geo) (t : Trig) (env : EnvCache) (g : NavGrid)
    (startLatLng endLatLng : LatLng) (p : Params) (ng : List NoGoZone)
    (hs : 0 < p.speed) (hhp : 0 ≤ p.hpReq) (hfr : 0 ≤ p.fuelRate)
    (hk : 0 ≤ p.k) (hload : 0 ≤ p.load) (hbw : 0 ≤ p.baseWeight)
    (hF : 0 ≤ p.F) (hS : 0 ≤ p.S) (hdist : ∀ a b, 0 ≤ geo.dist a b) :
    ∀ (strategy : Strategy) (i : ℕ),
      i + 1 < (findPath geo t env g startLatLng endLatLng p ng strategy).length →
      ((findPath geo t env g startLatLng endLatLng p ng strategy).getD i
        dummyPoint).totalFuel ≤
      ((findPath geo t env g startLatLng endLatLng p ng strategy).getD (i + 1)
        dummyPoint).totalFuel := by
  intro strategy i hi
  have hbase : 0 ≤ baseFuelPerKmQ p :=
    baseFuelPerKmQ_nonneg p (by unfold speedKmh; positivity) hhp hfr hk hload hbw hF hS
  have H : ∀ prev pt, 0 ≤ segmentFuelBetween geo t env g p strategy ng prev pt :=
    segmentFuelBetween_nonneg geo t env g p strategy ng hbase hdist
  rcases findPathStrategy_cases geo t env g startLatLng endLatLng p ng strategy with
    hcase | ⟨fp, hcase⟩
  · rw [findPath] at hi ⊢
    rw [hcase] at hi
    simp at hi
  · rw [findPath] at hi ⊢
    rw [hcase] at hi ⊢
    exact recalculateTotalFuel_mono_getD geo t env g p strategy ng H fp i hi

/-- Pop of a singleton heap: the root is returned and the heap empties. -/
theorem heapPop_single (n : SNode) : heapPop [n] = (n, []) := rfl

/-- Push onto an empty heap. -/
theorem heapPush_nil (n : SNode) : heapPush [] n = [n] := by
  rw [heapPush, bubbleUpAux]
  norm_num

/-- Nonnegativity of the discrete-metric geometry oracle. -/
theorem unitGeo_dist_nonneg : ∀ a b, 0 ≤ unitGeo.dist a b := by
  intro a b
  simp only [unitGeo]
  split <;> norm_num

/-- All-water 2 x 1 grid at origin with resolution 1. -/
def twoCellGrid : NavGrid := ⟨fun _ _ => 0, 0, 0, 1, 2, 1⟩

/-- The routed 2-cell scenario evaluates to a 2-point path. -/
theorem twoCellRun_length :
    (findPath unitGeo zeroTrig calmEnvCache twoCellGrid ⟨0, 0⟩ ⟨0, 1⟩
      sampleParams [] .balanced).length = 2 := by
  rw [findPath, findPathStrategy]
  norm_num [latLngToGrid, nodeOutOfBounds, gridToLatLng, twoCellGrid, runAStar,
    heuristic, unitGeo, baseFuelPerKmQ, fuelPerKmFormula, weightFactor, speedKmh,
    sampleParams, aStarFuel, -Prod.mk_zero_zero, -Prod.mk_one_one]
  rw [runAStarLoop]
  norm_num [heapPop_single, heapPush_nil, expandNeighbor, landNeighborSkipped, gsGet,
    getNeighbors, neighborOffsets, heuristic, calculateSegmentCost, baseFuelPerKmQ,
    fuelPerKmFormula, weightFactor, speedKmh, segmentCostMultiplier,
    windCostMultiplier, currentCostMutiplier, waveCostMutiplier, rainCostMutiplier,
    iceCostMutiplier, iceCostMutiplierWith, selectIceBand, iceBands,
    depthCostMutiplier, getEffectiveSpeed, isPointInNoGoZone, pointInRing, ringEdges,
    jsMod, infinityQ, fuelWeight, weatherPenaltyWeight, unitGeo, zeroTrig,
    calmEnvCache, emptyEnv, sampleParams, gridToLatLng, twoCellGrid, List.foldl,
    -Prod.mk_zero_zero, -Prod.mk_one_one]
  rw [runAStarLoop]
  norm_num [heapPop_single, reconstructAndFormatPath, mkBasePoint, gridToLatLng,
    twoCellGrid, recalculateTotalFuel, recalcAux, segmentFuelBetween,
    segmentTimeBetween, segmentSpeedBetween, -Prod.mk_zero_zero, -Prod.mk_one_one]

/-- Witness for `claimC5_theorem`: the all-water 2-cell scenario yields a
2-point path whose `totalFuel` annotations are monotone. -/
theorem claimC5_witness :
    (0 : ℚ) < sampleParams.speed ∧ (∀ a b, 0 ≤ unitGeo.dist a b) ∧
    0 + 1 < (findPath unitGeo zeroTrig calmEnvCache twoCellGrid ⟨0, 0⟩ ⟨0, 1⟩
      sampleParams [] .balanced).length ∧
    ((findPath unitGeo zeroTrig calmEnvCache twoCellGrid ⟨0, 0⟩ ⟨0, 1⟩
      sampleParams [] .balanced).getD 0 dummyPoint).totalFuel ≤
    ((findPath unitGeo zeroTrig calmEnvCache twoCellGrid ⟨0, 0⟩ ⟨0, 1⟩
      sampleParams [] .balanced).getD (0 + 1) dummyPoint).totalFuel := by
  have hlen := twoCellRun_length
  refine ⟨by norm_num [sampleParams], unitGeo_dist_nonneg, by rw [hlen]; norm_num, ?_⟩
  exact claimC5_theorem unitGeo zeroTrig calmEnvCache twoCellGrid ⟨0, 0⟩ ⟨0, 1⟩
    sampleParams [] (by norm_num [sampleParams]) (by norm_num [sampleParams])
    (by norm_num [sampleParams]) (by norm_num [sampleParams])
    (by norm_num [sampleParams]) (by norm_num [sampleParams])
    (by norm_num [sampleParams]) (by norm_num [sampleParams])
    unitGeo_dist_nonneg .balanced 0 (by rw [hlen]; norm_num)

/-- Predecessor of index `i` in the recomputation loop: the incoming
previous point for the head, the `i - 1`-st list element after that. -/
def prevAt (prev : PathPoint) (rest : List PathPoint) (i : ℕ) : PathPoint :=
  if i = 0 then prev else rest.getD (i - 1) dummyPoint

/-- Cumulative fuel feeding index `i`: the incoming accumulator for the
head, the predecessor's `totalFuel` after that. -/
def fuelAcc (cumF : ℚ) (out : List PathPoint) (i : ℕ) : ℚ :=
  if i = 0 then cumF else (out.getD (i - 1) dummyPoint).totalFuel

/-- Cumulative time feeding index `i`. -/
def timeAcc (cumT : ℚ) (out : List PathPoint) (i : ℕ) : ℚ :=
  if i = 0 then cumT else (out.getD (i - 1) dummyPoint).totalTime

/-- Unfolding `prevAt` across a cons cell. -/
theorem prevAt_cons (prev pt : PathPoint) (rest : List PathPoint) (j : ℕ) :
    prevAt prev (pt :: rest) (j + 1) = prevAt pt rest j := by
  cases j <;> simp [prevAt]

/-- Unfolding `fuelAcc` across a cons cell. -/
theorem fuelAcc_cons (cumF : ℚ) (q : PathPoint) (out : List PathPoint) (j : ℕ) :
    fuelAcc cumF (q :: out) (j + 1) = fuelAcc q.totalFuel out j := by
  cases j <;> simp [fuelAcc]

/-- Unfolding `timeAcc` across a cons cell. -/
theorem timeAcc_cons (cumT : ℚ) (q : PathPoint) (out : List PathPoint) (j : ℕ) :
    timeAcc cumT (q :: out) (j + 1) = timeAcc q.totalTime out j := by
  cases j <;> simp [timeAcc]

/-- Positional description of the recomputation loop: element `i` of the
output is the corresponding input point re-annotated with the per-segment
fuel/time computed against its predecessor, the cumulative totals adding the
per-segment values to the predecessor totals, and the geographic fields and
land flag unchanged. -/
theorem recalcAux_getD_spec (geo : Geo) (t : Trig) (env : EnvCache)
    (g : NavGrid) (p : Params) (s : Strategy) (ng : List NoGoZone) :
    ∀ (rest : List PathPoint) (prev : PathPoint) (cumF cumT : ℚ) (i : ℕ),
      i < rest.length →
      ((recalcAux geo t env g p s ng prev cumF cumT rest).getD i dummyPoint).segmentFuel =
        segmentFuelBetween geo t env g p s ng (prevAt prev rest i)
          (rest.getD i dummyPoint) ∧
      ((recalcAux geo t env g p s ng prev cumF cumT rest).getD i dummyPoint).segmentTime =
        segmentTimeBetween geo t env g p s ng (prevAt prev rest i)
          (rest.getD i dummyPoint) ∧
      ((recalcAux geo t env g p s ng prev cumF cumT rest).getD i dummyPoint).totalFuel =
        fuelAcc cumF (recalcAux geo t env g p s ng prev cumF cumT rest) i +
        ((recalcAux geo t env g p s ng prev cumF cumT rest).getD i dummyPoint).segmentFuel ∧
      ((recalcAux geo t env g p s ng prev cumF cumT rest).getD i dummyPoint).totalTime =
        timeAcc cumT (recalcAux geo t env g p s ng prev cumF cumT rest) i +
        ((recalcAux geo t env g p s ng prev cumF cumT rest).getD i dummyPoint).segmentTime ∧
      ((recalcAux geo t env g p s ng prev cumF cumT rest).getD i dummyPoint).onLand =
        (rest.getD i dummyPoint).onLand ∧
      ((recalcAux geo t env g p s ng prev cumF cumT rest).getD i dummyPoint).lat =
        (rest.getD i dummyPoint).lat ∧
      ((recalcAux geo t env g p s ng prev cumF cumT rest).getD i dummyPoint).lng =
        (rest.getD i dummyPoint).lng := by
  intro rest
  induction rest with
  | nil =>
    intro prev cumF cumT i hi
    simp at hi
  | cons pt rest ih =>
    intro prev cumF cumT i hi
    match i with
    | 0 =>
      exact ⟨rfl, rfl, rfl, rfl, rfl, rfl, rfl⟩
    | j + 1 =>
      have hj : j < rest.length := by simpa using hi
      have spec := ih pt (cumF + segmentFuelBetween geo t env g p s ng prev pt)
        (cumT + segmentTimeBetween geo t env g p s ng prev pt) j hj
      simp only [recalcAux, List.getD_cons_succ, prevAt_cons, fuelAcc_cons,
        timeAcc_cons]
      exact spec

/-- Cons-cell view of `List.getD` as the `prevAt` selector. -/
theorem getD_cons_prevAt (p0 : PathPoint) (rest : List PathPoint) (i : ℕ) :
    (p0 :: rest).getD i dummyPoint = prevAt p0 rest i := by
  cases i <;> simp [prevAt]

/-- C7: in the final recomputation pass, a segment with either endpoint
flagged `onLand` contributes exactly `0` fuel and `0` time to the cumulative
totals, while a segment with both endpoints on water is re-priced with the
same `calculateSegmentCost` used by the search; cumulative totals advance by
exactly the per-segment values. -/
theorem claimC7_theorem (geo : Geo) (t : Trig) (env : EnvCache) (g : NavGrid)
    (p : Params) (s : Strategy) (ng : List NoGoZone) (path : List PathPoint)
    (i : ℕ) (hi : i + 1 < path.length) :
    (((path.getD i dummyPoint).onLand = true ∨
        (path.getD (i + 1) dummyPoint).onLand = true) →
      ((recalculateTotalFuel geo t env g p s ng path).getD (i + 1)
        dummyPoint).segmentFuel = 0 ∧
      ((recalculateTotalFuel geo t env g p s ng path).getD (i + 1)
        dummyPoint).segmentTime = 0) ∧
    ((path.getD i dummyPoint).onLand = false →
      (path.getD (i + 1) dummyPoint).onLand = false →
      ((recalculateTotalFuel geo t env g p s ng path).getD (i + 1)
        dummyPoint).segmentFuel =
        (calculateSegmentCost geo t env g p s ng
          (latLngToGrid g ⟨(path.getD i dummyPoint).lat,
            (path.getD i dummyPoint).lng⟩)
          (latLngToGrid g ⟨(path.getD (i + 1) dummyPoint).lat,
            (path.getD (i + 1) dummyPoint).lng⟩)).fuelCost) ∧
    ((recalculateTotalFuel geo t env g p s ng path).getD (i + 1)
      dummyPoint).totalFuel =
      ((recalculateTotalFuel geo t env g p s ng path).getD i
        dummyPoint).totalFuel +
      ((recalculateTotalFuel geo t env g p s ng path).getD (i + 1)
        dummyPoint).segmentFuel ∧
    ((recalculateTotalFuel geo t env g p s ng path).getD (i + 1)
      dummyPoint).totalTime =
      ((recalculateTotalFuel geo t env g p s ng path).getD i
        dummyPoint).totalTime +
      ((recalculateTotalFuel geo t env g p s ng path).getD (i + 1)
        dummyPoint).segmentTime := by
  match path, hi with
  | p0 :: q :: rest0, hi =>
    have hi' : i < (q :: rest0).length := by simpa using hi
    have spec := recalcAux_getD_spec geo t env g p s ng (q :: rest0) p0 0 0 i hi'
    have hout : recalculateTotalFuel geo t env g p s ng (p0 :: q :: rest0) =
        { p0 with totalFuel := 0, totalTime := 0 } ::
          recalcAux geo t env g p s ng p0 0 0 (q :: rest0) := rfl
    rw [hout]
    simp only [List.getD_cons_succ]
    rw [getD_cons_prevAt p0 (q :: rest0) i]
    refine ⟨?_, ?_, ?_, ?_⟩
    · intro hland
      refine ⟨?_, ?_⟩
      · rw [spec.1]
        unfold segmentFuelBetween
        rcases hland with h | h <;> rw [h] <;> simp
      · rw [spec.2.1]
        unfold segmentTimeBetween
        rcases hland with h | h <;> rw [h] <;> simp
    · intro h1 h2
      rw [spec.1]
      unfold segmentFuelBetween
      rw [h1, h2]
      simp
    · rw [spec.2.2.1]
      congr 1
      cases i <;> simp [fuelAcc]
    · rw [spec.2.2.2.1]
      congr 1
      cases i <;> simp [timeAcc]

/-- Route point on land at the origin. -/
def landPt : PathPoint := ⟨0, 0, true, 0, 0, 0, 0, 0, 0⟩

/-- Route point on water. -/
def waterPt : PathPoint := ⟨0, 1, false, 0, 0, 0, 0, 0, 0⟩

/-- Witness for `claimC7_theorem`: on a 3-point path whose first segment
touches land, the recomputed first segment carries zero fuel and zero time. -/
theorem claimC7_witness :
    0 + 1 < ([landPt, landPt, waterPt] : List PathPoint).length ∧
    (((recalculateTotalFuel unitGeo zeroTrig calmEnvCache twoCellGrid sampleParams
        .balanced [] [landPt, landPt, waterPt]).getD (0 + 1) dummyPoint).segmentFuel = 0 ∧
      ((recalculateTotalFuel unitGeo zeroTrig calmEnvCache twoCellGrid sampleParams
        .balanced [] [landPt, landPt, waterPt]).getD (0 + 1) dummyPoint).segmentTime = 0) :=
  ⟨by norm_num,
    (claimC7_theorem unitGeo zeroTrig calmEnvCache twoCellGrid sampleParams
      .balanced [] [landPt, landPt, waterPt] 0 (by norm_num)).1
      (Or.inl (by norm_num [landPt]))⟩

/-- Paths the A* search can traverse from a cell to the goal: consecutive
cells are grid neighbours, and every cell after the first is either water
or the goal cell itself (the expansion filter of `runAStar`). -/
def ValidSearchPath (g : NavGrid) (goal : Node) : List Node → Prop
  | [] => False
  | [n] => n = goal
  | a :: b :: rest => b ∈ getNeighbors a g ∧ (g.grid b.x b.y = 0 ∨ b = goal) ∧
      ValidSearchPath g goal (b :: rest)

/-- Cumulative fuel cost of a node path, summing the `fuelCost` of
`calculateSegmentCost` over consecutive pairs — exactly the quantity the
search accumulates in `g` scores. -/
def pathCost (geo : Geo) (t : Trig) (env : EnvCache) (g : NavGrid) (p : Params)
    (s : Strategy) (ng : List NoGoZone) : List Node → ℚ
  | [] => 0
  | [_] => 0
  | a :: b :: rest => (calculateSegmentCost geo t env g p s ng a b).fuelCost +
      pathCost geo t env g p s ng (b :: rest)

/-- The heuristic is the strategy's rate (`1` for `fastest`, the fuel-per-km
value otherwise) times the great-circle distance. -/
theorem heuristic_eq (geo : Geo) (p : Params) (s : Strategy) (a b : Node) :
    heuristic geo p s a b =
      (if s = Strategy.fastest then 1 else baseFuelPerKmQ p) * geo.dist a b := by
  cases s <;> simp [heuristic]

/-- Geometry oracle with distance 100 km between distinct cells. -/
def c1Geo : Geo := ⟨fun a b => if a = b then 0 else 100, fun _ _ => 0⟩

/-- Environment oracle for the balanced-strategy counterexample: deep water
with 5 m following seas (wave direction 180°, i.e. dead astern of a
0°-bearing leg). -/
def c1EnvCache : EnvCache :=
  ⟨fun _ _ => { emptyEnv with
    depth := some 1000
    waves_height_m := some 5
    wind_direction_deg := some 180 }⟩

/-- C1 counterexample: the heuristic can exceed the true cost of a valid
one-segment path to the goal, under both quantified strategies.  Under
`fastest` the heuristic is the raw distance (100 km) but the segment over
missing-depth water costs only `5 * fuelPerKm * distance ≈ 25.6`; under
`balanced` following seas make the additive wave term negative, so the cost
multiplier drops below `1` and the segment costs less than
`fuelPerKm * distance`.  Hence neither heuristic is admissible as claimed. -/
theorem claimC1_counterexample :
    (ValidSearchPath twoCellGrid ⟨1, 0⟩ [⟨0, 0⟩, ⟨1, 0⟩] ∧
      pathCost c1Geo zeroTrig nullEnvCache twoCellGrid sampleParams .fastest []
          [⟨0, 0⟩, ⟨1, 0⟩] <
        heuristic c1Geo sampleParams .fastest ⟨0, 0⟩ ⟨1, 0⟩) ∧
    (ValidSearchPath twoCellGrid ⟨1, 0⟩ [⟨0, 0⟩, ⟨1, 0⟩] ∧
      pathCost c1Geo zeroTrig c1EnvCache twoCellGrid sampleParams .balanced []
          [⟨0, 0⟩, ⟨1, 0⟩] <
        heuristic c1Geo sampleParams .balanced ⟨0, 0⟩ ⟨1, 0⟩) := by
  have hvalid : ValidSearchPath twoCellGrid ⟨1, 0⟩ [⟨0, 0⟩, ⟨1, 0⟩] := by
    refine ⟨?_, ?_, rfl⟩
    · norm_num [getNeighbors, neighborOffsets, twoCellGrid]
    · norm_num [twoCellGrid]
  constructor
  · refine ⟨hvalid, ?_⟩
    norm_num [pathCost, heuristic, calculateSegmentCost, c1Geo, nullEnvCache,
      emptyEnv, baseFuelPerKmQ, fuelPerKmFormula, weightFactor, speedKmh,
      sampleParams, gridToLatLng, twoCellGrid]
  · refine ⟨hvalid, ?_⟩
    norm_num [pathCost, heuristic, calculateSegmentCost, c1Geo, c1EnvCache,
      emptyEnv, baseFuelPerKmQ, fuelPerKmFormula, weightFactor, speedKmh,
      segmentCostMultiplier, windCostMultiplier, currentCostMutiplier,
      waveCostMutiplier, rainCostMutiplier, iceCostMutiplier,
      iceCostMutiplierWith, selectIceBand, iceBands, depthCostMutiplier,
      getEffectiveSpeed, isPointInNoGoZone, pointInRing, ringEdges, jsMod,
      infinityQ, fuelWeight, weatherPenaltyWeight, zeroTrig, sampleParams,
      gridToLatLng, twoCellGrid]
    rw [if_neg (show ¬(Strategy.balanced = Strategy.fastest) by simp)]
    norm_num

/-- C1 (amended): the heuristic is admissible only on the benign regime.
If the geometry oracle is a metric (zero on the diagonal, triangle
inequality — both true of the haversine distance), the heuristic rate is
nonnegative, and every segment's fuel cost is at least the heuristic rate
times the segment distance (true in calm conditions, where the cost
multiplier and fuel multiplier are at least `1` for `balanced`/`safest`;
for `fastest` it additionally requires the fuel-per-km value to be at least
`1`), then for every traversable path from a cell to the goal the heuristic
at that cell is a lower bound on the path's cumulative segment cost.  In
general the bound fails (see the counterexample): missing-depth water prices
a segment at `5 × fuelPerKm` per km, which undercuts the `fastest`
heuristic's rate of `1` whenever `fuelPerKm < 1/5`, and following seas or
favourable currents push the `balanced` cost multiplier below `1`. -/
theorem claimC1_theorem (geo : Geo) (t : Trig) (env : EnvCache) (g : NavGrid)
    (p : Params) (s : Strategy) (ng : List NoGoZone) (goal : Node)
    (Hzero : ∀ x, geo.dist x x = 0)
    (Htri : ∀ x y z, geo.dist x z ≤ geo.dist x y + geo.dist y z)
    (hc : 0 ≤ (if s = Strategy.fastest then 1 else baseFuelPerKmQ p))
    (Hseg : ∀ u v, (if s = Strategy.fastest then 1 else baseFuelPerKmQ p) *
      geo.dist u v ≤ (calculateSegmentCost geo t env g p s ng u v).fuelCost) :
    ∀ (rest : List Node) (a : Node), ValidSearchPath g goal (a :: rest) →
      heuristic geo p s a goal ≤ pathCost geo t env g p s ng (a :: rest) := by
  intro rest
  induction rest with
  | nil =>
    intro a hv
    have ha : a = goal := hv
    rw [heuristic_eq, ha, Hzero goal]
    simp [pathCost]
  | cons b rest ih =>
    intro a hv
    obtain ⟨_hmem, _hwater, hv2⟩ := hv
    have step : heuristic geo p s a goal ≤
        (calculateSegmentCost geo t env g p s ng a b).fuelCost +
          heuristic geo p s b goal := by
      rw [heuristic_eq, heuristic_eq]
      calc (if s = Strategy.fastest then 1 else baseFuelPerKmQ p) * geo.dist a goal
          ≤ (if s = Strategy.fastest then 1 else baseFuelPerKmQ p) *
              (geo.dist a b + geo.dist b goal) :=
            mul_le_mul_of_nonneg_left (Htri a b goal) hc
        _ = (if s = Strategy.fastest then 1 else baseFuelPerKmQ p) * geo.dist a b +
              (if s = Strategy.fastest then 1 else baseFuelPerKmQ p) * geo.dist b goal := by
            ring
        _ ≤ (calculateSegmentCost geo t env g p s ng a b).fuelCost +
              (if s = Strategy.fastest then 1 else baseFuelPerKmQ p) * geo.dist b goal :=
            add_le_add_right (Hseg a b) _
    refine step.trans ?_
    show _ ≤ (calculateSegmentCost geo t env g p s ng a b).fuelCost +
      pathCost geo t env g p s ng (b :: rest)
    exact add_le_add_left (ih b hv2) _

/-- Triangle inequality of the discrete-metric geometry oracle. -/
theorem unitGeo_tri : ∀ x y z, unitGeo.dist x z ≤ unitGeo.dist x y + unitGeo.dist y z := by
  intro x y z
  simp only [unitGeo]
  split_ifs <;> simp_all

/-- Under the calm deep-water environment the balanced segment cost is
exactly `fuelPerKm * distance`, hence at least the heuristic rate times the
distance. -/
theorem calm_seg_bound : ∀ u v,
    (if Strategy.balanced = Strategy.fastest then 1 else baseFuelPerKmQ sampleParams) *
      unitGeo.dist u v ≤
    (calculateSegmentCost unitGeo zeroTrig calmEnvCache twoCellGrid sampleParams
      .balanced [] u v).fuelCost := by
  intro u v
  rw [if_neg (show ¬(Strategy.balanced = Strategy.fastest) by simp)]
  by_cases h : u = v
  · subst h
    norm_num [calculateSegmentCost, unitGeo]
  · norm_num [calculateSegmentCost, unitGeo, h, calmEnvCache, emptyEnv,
      baseFuelPerKmQ, fuelPerKmFormula, weightFactor, speedKmh,
      segmentCostMultiplier, windCostMultiplier, currentCostMutiplier,
      waveCostMutiplier, rainCostMutiplier, iceCostMutiplier,
      iceCostMutiplierWith, selectIceBand, iceBands, depthCostMutiplier,
      getEffectiveSpeed, isPointInNoGoZone, pointInRing, ringEdges, jsMod,
      infinityQ, fuelWeight, weatherPenaltyWeight, zeroTrig, sampleParams,
      gridToLatLng, twoCellGrid]

/-- Witness for `claimC1_theorem`: in the calm scenario the balanced
heuristic lower-bounds the one-segment path cost to the goal. -/
theorem claimC1_witness :
    ValidSearchPath twoCellGrid ⟨1, 0⟩ [⟨0, 0⟩, ⟨1, 0⟩] ∧
    heuristic unitGeo sampleParams .balanced ⟨0, 0⟩ ⟨1, 0⟩ ≤
      pathCost unitGeo zeroTrig calmEnvCache twoCellGrid sampleParams .balanced []
        [⟨0, 0⟩, ⟨1, 0⟩] := by
  have hvalid : ValidSearchPath twoCellGrid ⟨1, 0⟩ [⟨0, 0⟩, ⟨1, 0⟩] := by
    refine ⟨?_, ?_, rfl⟩
    · norm_num [getNeighbors, neighborOffsets, twoCellGrid]
    · norm_num [twoCellGrid]
  refine ⟨hvalid, ?_⟩
  exact claimC1_theorem unitGeo zeroTrig calmEnvCache twoCellGrid sampleParams
    .balanced [] ⟨1, 0⟩ (fun x => by simp [unitGeo])
    unitGeo_tri
    (by rw [if_neg (show ¬(Strategy.balanced = Strategy.fastest) by simp)]
        norm_num [baseFuelPerKmQ, fuelPerKmFormula, weightFactor, speedKmh, sampleParams])
    calm_seg_bound [⟨1, 0⟩] ⟨0, 0⟩ hvalid

/-- C4: degenerate routing outcomes never raise.  Every branch of the
per-strategy body is total and returns a value (the embedding is a total
function — the model counterpart of "no exception is thrown"), and each of
the three degenerate outcomes yields the empty path for that strategy:
an exhausted open set makes the search loop return `none`; an out-of-bounds
start or end cell short-circuits to `[]`; a failed shore-bridge BFS on
either endpoint yields `[]`; and a `none` A* result yields `[]`.  Since
`findPath` computes each strategy independently, a degenerate outcome for
one strategy leaves the others untouched. -/
theorem claimC4_theorem (geo : Geo) (t : Trig) (env : EnvCache) (g : NavGrid)
    (startLatLng endLatLng : LatLng) (p : Params) (ng : List NoGoZone)
    (strategy : Strategy) :
    (∀ (fuel : ℕ) (endNode : Node) (closed : List (ℤ × ℤ))
        (gScores : List ((ℤ × ℤ) × ℚ)),
      runAStarLoop geo t env g p strategy ng endNode fuel [] closed gScores = none) ∧
    ((nodeOutOfBounds g (latLngToGrid g startLatLng) = true ∨
        nodeOutOfBounds g (latLngToGrid g endLatLng) = true) →
      findPath geo t env g startLatLng endLatLng p ng strategy = []) ∧
    (g.grid (latLngToGrid g startLatLng).x (latLngToGrid g startLatLng).y = 1 →
      findPathToNearestWater (latLngToGrid g startLatLng) g = none →
      findPath geo t env g startLatLng endLatLng p ng strategy = []) ∧
    (g.grid (latLngToGrid g endLatLng).x (latLngToGrid g endLatLng).y = 1 →
      findPathToNearestWater (latLngToGrid g endLatLng) g = none →
      findPath geo t env g startLatLng endLatLng p ng strategy = []) ∧
    (∀ (ps pe : List PathPoint) (aStart aEnd : Node),
      (if g.grid (latLngToGrid g startLatLng).x (latLngToGrid g startLatLng).y = 1
        then findPathToNearestWater (latLngToGrid g startLatLng) g
        else some ([], latLngToGrid g startLatLng)) = some (ps, aStart) →
      (if g.grid (latLngToGrid g endLatLng).x (latLngToGrid g endLatLng).y = 1
        then findPathToNearestWater (latLngToGrid g endLatLng) g
        else some ([], latLngToGrid g endLatLng)) = some (pe, aEnd) →
      runAStar geo t env g p strategy ng aStart aEnd = none →
      findPath geo t env g startLatLng endLatLng p ng strategy = []) := by
  refine ⟨?_, ?_, ?_, ?_, ?_⟩
  · intro fuel endNode closed gScores
    rw [runAStarLoop]
    by_cases hf : fuel = 0 <;> simp [hf]
  · intro h
    rw [findPath, findPathStrategy]
    rw [if_pos (by simpa using h)]
  · intro hland hbfs
    rw [findPath, findPathStrategy]
    split
    · rfl
    · simp [hland, hbfs]
  · intro hland hbfs
    rw [findPath, findPathStrategy]
    split
    · rfl
    · simp only [hland, if_pos rfl, hbfs]
      split
      · rfl
      · simp
  · intro ps pe aStart aEnd hsi hei hrun
    rw [findPath]
    simp only [findPathStrategy]
    split
    · rfl
    · simp [hsi, hei, hrun]

/-- Single all-land cell grid. -/
def oneLandGrid : NavGrid := ⟨fun _ _ => 1, 0, 0, 1, 1, 1⟩

/-- All-land 3 x 3 grid except water at opposite corners (0,0) and (2,2),
which are not mutually reachable. -/
def c4Grid : NavGrid :=
  ⟨fun x y => if (x = 0 ∧ y = 0) ∨ (x = 2 ∧ y = 2) then 0 else 1, 0, 0, 1, 3, 3⟩

/-- The shore-bridge BFS exhausts on the all-land grid. -/
theorem c4_bfs_none :
    findPathToNearestWater (latLngToGrid oneLandGrid ⟨0, 0⟩) oneLandGrid = none := by
  rw [findPathToNearestWater]
  norm_num [bfsFuel, oneLandGrid, latLngToGrid]
  rw [bfsLoop]
  norm_num [oneLandGrid, getNeighbors, neighborOffsets, List.foldl,
    -Prod.mk_zero_zero, -Prod.mk_one_one]
  rw [bfsLoop]
  norm_num

/-- The A* open set exhausts between the two isolated water corners. -/
theorem c4_astar_none :
    runAStar unitGeo zeroTrig calmEnvCache c4Grid sampleParams .safest []
      ⟨0, 0⟩ ⟨2, 2⟩ = none := by
  rw [runAStar]
  norm_num [aStarFuel, c4Grid]
  rw [runAStarLoop]
  norm_num [heapPop_single, c4Grid, getNeighbors, neighborOffsets, List.foldl,
    expandNeighbor, landNeighborSkipped, gsGet, -Prod.mk_zero_zero, -Prod.mk_one_one]
  rw [runAStarLoop]
  norm_num

/-- Witness for `claimC4_theorem`: three concrete degenerate scenarios — an
out-of-bounds end coordinate, a landlocked start with exhausted BFS, and an
unreachable water goal with exhausted open set — each produce the empty
path. -/
theorem claimC4_witness :
    (nodeOutOfBounds twoCellGrid (latLngToGrid twoCellGrid ⟨0, 5⟩) = true ∧
      findPath unitGeo zeroTrig calmEnvCache twoCellGrid ⟨0, 0⟩ ⟨0, 5⟩
        sampleParams [] .balanced = []) ∧
    (oneLandGrid.grid (latLngToGrid oneLandGrid ⟨0, 0⟩).x
        (latLngToGrid oneLandGrid ⟨0, 0⟩).y = 1 ∧
      findPathToNearestWater (latLngToGrid oneLandGrid ⟨0, 0⟩) oneLandGrid = none ∧
      findPath unitGeo zeroTrig calmEnvCache oneLandGrid ⟨0, 0⟩ ⟨0, 0⟩
        sampleParams [] .fastest = []) ∧
    (runAStar unitGeo zeroTrig calmEnvCache c4Grid sampleParams .safest []
        ⟨0, 0⟩ ⟨2, 2⟩ = none ∧
      findPath unitGeo zeroTrig calmEnvCache c4Grid ⟨0, 0⟩ ⟨2, 2⟩
        sampleParams [] .safest = []) := by
  have hs0 : latLngToGrid c4Grid ⟨0, 0⟩ = ⟨0, 0⟩ := by
    simp [latLngToGrid, c4Grid]
  have he0 : latLngToGrid c4Grid ⟨2, 2⟩ = (⟨2, 2⟩ : Node) := by
    simp [latLngToGrid, c4Grid]
  have hofb : nodeOutOfBounds twoCellGrid (latLngToGrid twoCellGrid ⟨0, 5⟩) = true := by
    norm_num [nodeOutOfBounds, latLngToGrid, twoCellGrid]
  have hlandA : oneLandGrid.grid (latLngToGrid oneLandGrid ⟨0, 0⟩).x
      (latLngToGrid oneLandGrid ⟨0, 0⟩).y = 1 := rfl
  refine ⟨⟨hofb, ?_⟩, ⟨hlandA, c4_bfs_none, ?_⟩, ⟨c4_astar_none, ?_⟩⟩
  · exact (claimC4_theorem unitGeo zeroTrig calmEnvCache twoCellGrid ⟨0, 0⟩ ⟨0, 5⟩
      sampleParams [] .balanced).2.1 (Or.inr hofb)
  · exact (claimC4_theorem unitGeo zeroTrig calmEnvCache oneLandGrid ⟨0, 0⟩ ⟨0, 0⟩
      sampleParams [] .fastest).2.2.1 hlandA c4_bfs_none
  · refine (claimC4_theorem unitGeo zeroTrig calmEnvCache c4Grid ⟨0, 0⟩ ⟨2, 2⟩
      sampleParams [] .safest).2.2.2.2 [] [] (latLngToGrid c4Grid ⟨0, 0⟩)
      (latLngToGrid c4Grid ⟨2, 2⟩) ?_ ?_ ?_
    · rw [if_neg (by rw [hs0]; norm_num [c4Grid])]
    · rw [if_neg (by rw [he0]; norm_num [c4Grid])]
    · rw [hs0, he0]
      exact c4_astar_none

/-- Elements of `bubbleUpAux` come from the input heap or are the bubbled
node (the loop only swaps elements). -/
theorem bubbleUpAux_subset (node : SNode) : ∀ (index : ℕ) (heap : List SNode),
    index < heap.length → ∀ x ∈ bubbleUpAux heap node index, x ∈ heap ∨ x = node := by
  intro index
  induction index using Nat.strong_induction_on with
  | _ index ih =>
    intro heap hlen x hx
    rw [bubbleUpAux] at hx
    by_cases h0 : index = 0
    · rw [dif_pos h0] at hx
      exact Or.inl hx
    · rw [dif_neg h0] at hx
      dsimp only at hx
      by_cases hle : (heap.getD ((index - 1) / 2) dummySNode).f ≤ node.f
      · rw [if_pos hle] at hx
        exact Or.inl hx
      · rw [if_neg hle] at hx
        have hpIdx : (index - 1) / 2 < index := by
          have := Nat.div_le_self (index - 1) 2
          omega
        have hplen : (index - 1) / 2 < heap.length := lt_trans hpIdx hlen
        have hlen2 : (index - 1) / 2 <
            ((heap.set ((index - 1) / 2) node).set index
              (heap.getD ((index - 1) / 2) dummySNode)).length := by
          simpa using hplen
        rcases ih _ hpIdx _ hlen2 x hx with hmem | hnode
        · rcases List.mem_or_eq_of_mem_set hmem with hmem2 | hx_eq
          · rcases List.mem_or_eq_of_mem_set hmem2 with hmem3 | hx_eq2
            · exact Or.inl hmem3
            · exact Or.inr hx_eq2
          · left
            rw [hx_eq, List.getD_eq_getElem _ _ hplen]
            exact List.getElem_mem _
        · exact Or.inr hnode

/-- Elements of `heapPush` come from the heap or are the pushed node. -/
theorem heapPush_subset (heap : List SNode) (node : SNode) :
    ∀ x ∈ heapPush heap node, x ∈ heap ∨ x = node := by
  intro x hx
  rcases bubbleUpAux_subset node heap.length (heap ++ [node]) (by simp) x hx with
    hmem | hnode
  · rcases List.mem_append.mp hmem with h | h
    · exact Or.inl h
    · exact Or.inr (by simpa using h)
  · exact Or.inr hnode

/-- Elements of `sinkDownAux` come from the input heap or are the sinking
node. -/
theorem sinkDownAux_subset : ∀ (fuel : ℕ) (heap : List SNode) (node : SNode)
    (index : ℕ), ∀ x ∈ sinkDownAux fuel heap node index, x ∈ heap ∨ x = node := by
  intro fuel
  induction fuel with
  | zero =>
    intro heap node index x hx
    rw [sinkDownAux] at hx
    simp at hx
    exact Or.inl hx
  | succ f ih =>
    intro heap node index x hx
    rw [sinkDownAux] at hx
    rw [if_neg (Nat.succ_ne_zero f)] at hx
    dsimp only at hx
    split at hx
    · exact Or.inl hx
    · rename_i s heq
      have hslen : s < heap.length := by
        by_cases hR : 2 * index + 2 < heap.length ∧
            (((if 2 * index + 1 < heap.length ∧
                (heap.getD (2 * index + 1) dummySNode).f < node.f
              then some (2 * index + 1) else none) = none ∧
              (heap.getD (2 * index + 2) dummySNode).f < node.f) ∨
              ((if 2 * index + 1 < heap.length ∧
                (heap.getD (2 * index + 1) dummySNode).f < node.f
              then some (2 * index + 1) else none) ≠ none ∧
              (heap.getD (2 * index + 2) dummySNode).f <
                (heap.getD (((if 2 * index + 1 < heap.length ∧
                  (heap.getD (2 * index + 1) dummySNode).f < node.f
                then some (2 * index + 1) else none)).getD 0) dummySNode).f))
        · rw [if_pos hR] at heq
          cases heq
          exact hR.1
        · rw [if_neg hR] at heq
          by_cases hL : 2 * index + 1 < heap.length ∧
              (heap.getD (2 * index + 1) dummySNode).f < node.f
          · rw [if_pos hL] at heq
            cases heq
            exact hL.1
          · rw [if_neg hL] at heq
            cases heq
      rcases ih _ node s x hx with hmem | hnode
      · rcases List.mem_or_eq_of_mem_set hmem with hmem2 | hx_eq
        · rcases List.mem_or_eq_of_mem_set hmem2 with hmem3 | hx_eq2
          · exact Or.inl hmem3
          · left
            rw [hx_eq2, List.getD_eq_getElem _ _ hslen]
            exact List.getElem_mem _
        · exact Or.inr hx_eq
      · exact Or.inr hnode

/-- The popped element belongs to the (nonempty) heap. -/
theorem heapPop_fst_mem (heap : List SNode) (h : heap ≠ []) :
    (heapPop heap).1 ∈ heap := by
  match heap with
  | [mn] => simp [heapPop]
  | mn :: b :: rest => simp [heapPop]

/-- Elements of the heap remaining after a pop come from the original heap. -/
theorem heapPop_snd_subset (heap : List SNode) :
    ∀ x ∈ (heapPop heap).2, x ∈ heap := by
  match heap with
  | [] => simp [heapPop]
  | [mn] => simp [heapPop]
  | mn :: b :: rest =>
    intro x hx
    simp only [heapPop] at hx
    have hlast : (b :: rest).getLastD dummySNode ∈ (b :: rest) := by
      rw [List.getLastD_eq_getLast?, List.getLast?_eq_getLast (b :: rest) (by simp)]
      exact List.getLast_mem _
    rcases sinkDownAux_subset _ _ _ _ x hx with hmem | hnode
    · rcases List.mem_cons.mp hmem with hhead | htail
      · rw [hhead]
        exact List.mem_cons_of_mem mn hlast
      · exact List.mem_cons_of_mem mn (((b :: rest).dropLast_sublist).subset htail)
    · rw [hnode]
      exact List.mem_cons_of_mem mn hlast

/-- All ancestors recorded in a search node's parent chain are non-land
cells. -/
def chainWater (g : NavGrid) (n : SNode) : Prop :=
  ∀ c ∈ n.chain, g.grid c.1.x c.1.y ≠ 1

/-- Invariant of every node in the open heap: its ancestors are non-land,
and the node itself is non-land or is the goal cell of the search. -/
def nodeOk (g : NavGrid) (endNode : Node) (n : SNode) : Prop :=
  chainWater g n ∧ (g.grid n.x n.y ≠ 1 ∨ (n.x = endNode.x ∧ n.y = endNode.y))

/-- The neighbour-expansion fold preserves the open-heap invariant: pushed
nodes extend a non-land expanding node's chain and are themselves non-land
or the goal (by the land filter). -/
theorem expand_fold_ok (geo : Geo) (t : Trig) (env : EnvCache) (g : NavGrid)
    (p : Params) (s : Strategy) (ng : List NoGoZone) (endNode : Node)
    (current : SNode) (closed : List (ℤ × ℤ))
    (hcur_chain : chainWater g current)
    (hcur_water : g.grid current.x current.y ≠ 1) :
    ∀ (neighbors : List Node) (acc : List SNode × List ((ℤ × ℤ) × ℚ)),
      (∀ n ∈ acc.1, nodeOk g endNode n) →
      ∀ n ∈ (neighbors.foldl
          (expandNeighbor geo t env g p s ng endNode current closed) acc).1,
        nodeOk g endNode n := by
  intro neighbors
  induction neighbors with
  | nil =>
    intro acc hacc
    simpa using hacc
  | cons nb rest ih =>
    intro acc hacc
    rw [List.foldl_cons]
    apply ih
    intro n hn
    rw [expandNeighbor] at hn
    by_cases h1 : (nb.x, nb.y) ∈ closed
    · rw [if_pos h1] at hn
      exact hacc n hn
    · rw [if_neg h1] at hn
      by_cases h2 : landNeighborSkipped g endNode nb = true
      · rw [if_pos h2] at hn
        exact hacc n hn
      · rw [if_neg h2] at hn
        dsimp only at hn
        split at hn
        · rcases heapPush_subset _ _ n hn with hmem | hnew
          · exact hacc n hmem
          · subst hnew
            constructor
            · intro c hc
              rcases List.mem_cons.mp hc with hc1 | hc2
              · rw [hc1]
                exact hcur_water
              · exact hcur_chain c hc2
            · have h2f : landNeighborSkipped g endNode nb = false :=
                Bool.eq_false_iff.mpr h2
              by_cases hland : g.grid nb.x nb.y = 1
              · right
                simp [landNeighborSkipped, hland] at h2f
                exact h2f
              · left
                exact hland
        · exact hacc n hn

/-- Main-loop invariant: if every open node satisfies `nodeOk`, any returned
node has an all-non-land ancestor chain and the goal's coordinates. -/
theorem runAStarLoop_ok (geo : Geo) (t : Trig) (env : EnvCache) (g : NavGrid)
    (p : Params) (s : Strategy) (ng : List NoGoZone) (endNode : Node) :
    ∀ (fuel : ℕ) (heap : List SNode) (closed : List (ℤ × ℤ))
      (gScores : List ((ℤ × ℤ) × ℚ)),
      (∀ n ∈ heap, nodeOk g endNode n) →
      ∀ res, runAStarLoop geo t env g p s ng endNode fuel heap closed gScores =
          some res →
        chainWater g res ∧ res.x = endNode.x ∧ res.y = endNode.y := by
  intro fuel
  induction fuel with
  | zero =>
    intro heap closed gs hinv res hres
    rw [runAStarLoop] at hres
    simp at hres
  | succ f ih =>
    intro heap closed gs hinv res hres
    rw [runAStarLoop] at hres
    rw [if_neg (Nat.succ_ne_zero f)] at hres
    by_cases hemp : heap.isEmpty = true
    · rw [if_pos hemp] at hres
      simp at hres
    · rw [if_neg hemp] at hres
      dsimp only at hres
      have hne : heap ≠ [] := by
        simpa [List.isEmpty_iff] using hemp
      have hcur : nodeOk g endNode (heapPop heap).1 :=
        hinv _ (heapPop_fst_mem heap hne)
      have hrest : ∀ n ∈ (heapPop heap).2, nodeOk g endNode n :=
        fun n hn => hinv n (heapPop_snd_subset heap n hn)
      by_cases hcl : ((heapPop heap).1.x, (heapPop heap).1.y) ∈ closed
      · rw [if_pos hcl] at hres
        exact ih _ _ _ hrest res hres
      · rw [if_neg hcl] at hres
        by_cases hgoal : (heapPop heap).1.x = endNode.x ∧
            (heapPop heap).1.y = endNode.y
        · rw [if_pos hgoal] at hres
          cases hres
          exact ⟨hcur.1, hgoal⟩
        · rw [if_neg hgoal] at hres
          have hcurw : g.grid (heapPop heap).1.x (heapPop heap).1.y ≠ 1 := by
            rcases hcur.2 with h | h
            · exact h
            · exact absurd h hgoal
          refine ih _ _ _ ?_ res hres
          exact expand_fold_ok geo t env g p s ng endNode (heapPop heap).1 _
            hcur.1 hcurw _ _ hrest

/-- C2 (amended): (i) during the A* search a land neighbour passes the
expansion filter exactly when it is that search's goal cell; (ii) every
point of the A*-searched water segment except possibly its last (the goal)
is a water cell whenever the search starts on water, and the returned node
carries the goal's coordinates.  (The original claim's stronger statement —
that in the assembled `findPath` output only the first and/or last point may
be land — is false: the shore-bridging prefix produced by the BFS can
contain several consecutive land points; see the counterexample.) -/
theorem claimC2_theorem :
    (∀ (g : NavGrid) (endNode n : Node), g.grid n.x n.y = 1 →
      (landNeighborSkipped g endNode n = false ↔
        (n.x = endNode.x ∧ n.y = endNode.y))) ∧
    (∀ (geo : Geo) (t : Trig) (env : EnvCache) (g : NavGrid) (p : Params)
        (s : Strategy) (ng : List NoGoZone) (startNode endNode : Node),
      g.grid startNode.x startNode.y ≠ 1 →
      ∀ res, runAStar geo t env g p s ng startNode endNode = some res →
        (∀ pt ∈ (reconstructAndFormatPath res g 0).dropLast, pt.onLand = false) ∧
        res.x = endNode.x ∧ res.y = endNode.y) := by
  constructor
  · intro g endNode n hland
    simp [landNeighborSkipped, hland]
  · intro geo t env g p s ng startNode endNode hstart res hres
    rw [runAStar] at hres
    have hinv : ∀ n ∈ [(⟨startNode.x, startNode.y, 0,
        heuristic geo p s startNode endNode, heuristic geo p s startNode endNode,
        []⟩ : SNode)], nodeOk g endNode n := by
      intro n hn
      rcases List.mem_singleton.mp hn with rfl
      exact ⟨fun c hc => by simp at hc, Or.inl hstart⟩
    have hok := runAStarLoop_ok geo t env g p s ng endNode _ _ _ _ hinv res hres
    refine ⟨?_, hok.2⟩
    intro pt hpt
    rw [reconstructAndFormatPath] at hpt
    rw [List.reverse_cons, List.map_append] at hpt
    simp only [List.map_cons, List.map_nil, List.dropLast_concat] at hpt
    rcases List.mem_map.mp hpt with ⟨c, hc, rfl⟩
    have hcw := hok.1 c (List.mem_reverse.mp hc)
    simp [mkBasePoint, hcw]

/-- Reduction of a conditional on a manifestly nonempty list (the decidable
instance cannot evaluate by reduction because `PathPoint` carries rationals,
so the reduction is provided as a rewrite rule). -/
theorem if_cons_eq_nil {α : Type} {β : Sort 1} (a : α) (l : List α) (x y : β)
    [Decidable (a :: l = ([] : List α))] : (if a :: l = [] then x else y) = y :=
  if_neg (by simp)

/-- Nonempty-list conditional, disequality form. -/
theorem if_cons_ne_nil {α : Type} {β : Sort 1} (a : α) (l : List α) (x y : β)
    [Decidable (a :: l ≠ ([] : List α))] : (if a :: l ≠ [] then x else y) = x :=
  if_pos (by simp)

/-- Grid of 5 x 1 cells, water at the two ends and three land cells between:
cell (2,0) is land two steps away from the nearest water. -/
def c2Grid : NavGrid := ⟨fun x _ => if x = 0 ∨ x = 4 then 0 else 1, 0, 0, 1, 5, 1⟩

/-- Full evaluation of the bridged route on `c2Grid` from the on-land cell
(2,0) to the water cell (0,0): the shore-bridge BFS contributes the land
prefix (2,0), (1,0) before the water point (0,0). -/
theorem c2Run_eval :
    findPath unitGeo zeroTrig calmEnvCache c2Grid ⟨0, 2⟩ ⟨0, 0⟩ sampleParams []
      .balanced =
    [⟨0, 2, true, 0, 0, 0, 0, 0, 0⟩,
     ⟨0, 1, true, 0, 0, 0, 1, 0, 0⟩,
     ⟨0, 0, false, 0, 0, 0, 1, 0, 0⟩] := by
  rw [findPath, findPathStrategy]
  norm_num [latLngToGrid, nodeOutOfBounds, gridToLatLng, c2Grid,
    findPathToNearestWater, bfsFuel, -Prod.mk_zero_zero, -Prod.mk_one_one]
  rw [bfsLoop]
  norm_num [c2Grid, getNeighbors, neighborOffsets, List.foldl, mkBasePoint,
    gridToLatLng, -Prod.mk_zero_zero, -Prod.mk_one_one]
  rw [bfsLoop]
  norm_num [c2Grid, getNeighbors, neighborOffsets, List.foldl, mkBasePoint,
    gridToLatLng, -Prod.mk_zero_zero, -Prod.mk_one_one]
  rw [bfsLoop]
  norm_num [c2Grid, getNeighbors, neighborOffsets, List.foldl, mkBasePoint,
    gridToLatLng, -Prod.mk_zero_zero, -Prod.mk_one_one]
  rw [bfsLoop]
  norm_num [c2Grid, getNeighbors, neighborOffsets, List.foldl, mkBasePoint,
    gridToLatLng, runAStar, aStarFuel, heuristic, unitGeo, baseFuelPerKmQ,
    fuelPerKmFormula, weightFactor, speedKmh, -Prod.mk_zero_zero, -Prod.mk_one_one]
  rw [runAStarLoop]
  norm_num [heapPop_single, reconstructAndFormatPath, mkBasePoint, gridToLatLng,
    c2Grid, recalculateTotalFuel, recalcAux, segmentFuelBetween, segmentTimeBetween,
    segmentSpeedBetween, latLngToGrid, unitGeo, if_cons_eq_nil, if_cons_ne_nil,
    -Prod.mk_zero_zero, -Prod.mk_one_one]

/-- C2 counterexample: the route bridged from the on-land cell (2,0) has 3
points whose first TWO points are land — its second point is an
intermediate land point, contradicting "every intermediate point is a water
cell; only the first and/or last point may be a land cell". -/
theorem claimC2_counterexample :
    (findPath unitGeo zeroTrig calmEnvCache c2Grid ⟨0, 2⟩ ⟨0, 0⟩ sampleParams []
      .balanced).length = 3 ∧
    ((findPath unitGeo zeroTrig calmEnvCache c2Grid ⟨0, 2⟩ ⟨0, 0⟩ sampleParams []
      .balanced).getD 1 dummyPoint).onLand = true ∧
    ((findPath unitGeo zeroTrig calmEnvCache c2Grid ⟨0, 2⟩ ⟨0, 0⟩ sampleParams []
      .balanced).getD 0 dummyPoint).onLand = true ∧
    ((findPath unitGeo zeroTrig calmEnvCache c2Grid ⟨0, 2⟩ ⟨0, 0⟩ sampleParams []
      .balanced).getD 2 dummyPoint).onLand = false := by
  rw [c2Run_eval]
  refine ⟨rfl, rfl, rfl, rfl⟩

/-- Evaluation of the A* search on the all-water 2-cell grid. -/
theorem twoCell_astar_eval :
    runAStar unitGeo zeroTrig calmEnvCache twoCellGrid sampleParams .balanced []
      ⟨0, 0⟩ ⟨1, 0⟩ =
    some ⟨1, 0, 95 / 1852, 0, 95 / 1852, [(⟨0, 0⟩, 0)]⟩ := by
  rw [runAStar]
  norm_num [aStarFuel, twoCellGrid, heuristic, unitGeo, baseFuelPerKmQ,
    fuelPerKmFormula, weightFactor, speedKmh, sampleParams, -Prod.mk_zero_zero,
    -Prod.mk_one_one]
  rw [runAStarLoop]
  norm_num [heapPop_single, heapPush_nil, expandNeighbor, landNeighborSkipped,
    gsGet, getNeighbors, neighborOffsets, heuristic, calculateSegmentCost,
    baseFuelPerKmQ, fuelPerKmFormula, weightFactor, speedKmh,
    segmentCostMultiplier, windCostMultiplier, currentCostMutiplier,
    waveCostMutiplier, rainCostMutiplier, iceCostMutiplier, iceCostMutiplierWith,
    selectIceBand, iceBands, depthCostMutiplier, getEffectiveSpeed,
    isPointInNoGoZone, pointInRing, ringEdges, jsMod, infinityQ, fuelWeight,
    weatherPenaltyWeight, unitGeo, zeroTrig, calmEnvCache, emptyEnv, sampleParams,
    gridToLatLng, twoCellGrid, List.foldl, -Prod.mk_zero_zero, -Prod.mk_one_one]
  rw [runAStarLoop]
  norm_num [heapPop_single, -Prod.mk_zero_zero, -Prod.mk_one_one]

/-- Witness for `claimC2_theorem`: the filter admits the land cell (1,0) of
`c2Grid` exactly as a goal, and the water search on the 2-cell grid returns
a node whose reconstructed path is water except at its final point. -/
theorem claimC2_witness :
    (c2Grid.grid 1 0 = 1 ∧ landNeighborSkipped c2Grid ⟨1, 0⟩ ⟨1, 0⟩ = false) ∧
    (twoCellGrid.grid 0 0 ≠ 1 ∧
      runAStar unitGeo zeroTrig calmEnvCache twoCellGrid sampleParams .balanced []
        ⟨0, 0⟩ ⟨1, 0⟩ = some ⟨1, 0, 95 / 1852, 0, 95 / 1852, [(⟨0, 0⟩, 0)]⟩ ∧
      (∀ pt ∈ (reconstructAndFormatPath ⟨1, 0, 95 / 1852, 0, 95 / 1852, [(⟨0, 0⟩, 0)]⟩
        twoCellGrid 0).dropLast, pt.onLand = false)) := by
  have hland : c2Grid.grid 1 0 = 1 := by norm_num [c2Grid]
  refine ⟨⟨hland, ?_⟩, ?_, twoCell_astar_eval, ?_⟩
  · exact (claimC2_theorem.1 c2Grid ⟨1, 0⟩ ⟨1, 0⟩ hland).mpr ⟨rfl, rfl⟩
  · norm_num [twoCellGrid]
  · exact (claimC2_theorem.2 unitGeo zeroTrig calmEnvCache twoCellGrid sampleParams
      .balanced [] ⟨0, 0⟩ ⟨1, 0⟩ (by norm_num [twoCellGrid]) _ twoCell_astar_eval).1
